import Mathlib

/-!
# AutoBathFan / HumidityCheck

A shallow embedding of `src/sketches/AutoBathFan/HumidityCheck.cpp`: the rolling
history of humidity readings (`addRhValue`, `getAverage`), the dynamic trigger
level (`getTriggerRH`) and the fan decision (`check`).

Conventions of the embedding.

* C `int`/`long` values are `Int`; no overflow is modelled (readings are
  percentages and `sum` is a 32-bit `long`).
* `float` values are exact numbers: the averages are rationals, the trigger level
  is a real number or `+∞` (the result of dividing by zero). Rounding is not
  modelled.
* `HumidityCheck.h` is not part of the sources, so the constants it declares are
  the fields of `Config` and the member variables are the fields of
  `HumidityCheck`.
* `now()` is read once per call of `check`, times are seconds that never roll
  over, and `Serial` output is left out.
* Everything but the trigger level itself is executable: `getTriggerRH` contains a
  real square root, and `check` decides its comparison with the level through
  `aboveTrigger`, an equivalent test on rationals.
-/

namespace AutoBathFan

/-- The constants of the header `HumidityCheck.h`, which the sketch uses by name:
the capacity of the history array and the two window sizes (in samples), and the
sampling period (in seconds). -/
structure Config where
  RHindexSize : Int
  shortPeriod : Int
  longPeriod : Int
  readingPeriod : Int

/-- The member variables of the class `HumidityCheck`. `RHvalues` is the history
array, addressed by a C index; `humidity` is `dht.humidity`, the reading left
behind by the sensor library. -/
structure HumidityCheck where
  RHvalues : Int → Int
  RHindex : Int
  RHindexFilled : Int
  fanOn : Bool
  triggeredHumidity : ℚ
  onTime : Int
  lastCalledTime : Int
  humidity : Int

/-- `HumidityCheck::addRhValue` (lines 132-146). -/
def addRhValue (cfg : Config) (s : HumidityCheck) (v : Int) : HumidityCheck :=
  -- RHvalues[RHindex] = v;
  let s := { s with RHvalues := Function.update s.RHvalues s.RHindex v }
  -- RHindex++;
  let s := { s with RHindex := s.RHindex + 1 }
  -- if (RHindex >= RHindexSize) RHindex = 0;
  let s := if s.RHindex ≥ cfg.RHindexSize then { s with RHindex := 0 } else s
  -- if (RHindexFilled < RHindexSize) RHindexFilled++;
  if s.RHindexFilled < cfg.RHindexSize then
    { s with RHindexFilled := s.RHindexFilled + 1 }
  else s

/-- The local variables of the loop of `getAverage`, together with the list of
the array indices read so far (oldest read first). -/
structure AverageLoop where
  currentIndex : Int
  sum : Int
  reads : List Int

/-- One pass through the body of the `for` loop of `getAverage` (lines 170-176). -/
def getAverageBody (cfg : Config) (s : HumidityCheck) (l : AverageLoop) : AverageLoop :=
  -- if (currentIndex < 0) currentIndex = RHindexSize-1;
  let currentIndex := if l.currentIndex < 0 then cfg.RHindexSize - 1 else l.currentIndex
  -- sum += RHvalues[currentIndex]; currentIndex--;
  { currentIndex := currentIndex - 1
    sum := l.sum + s.RHvalues currentIndex
    reads := l.reads ++ [currentIndex] }

/-- The loop `for (int i=0; i<numElements; i++)` of `getAverage`: the body runs
`numElements` times. -/
def getAverageLoop (cfg : Config) (s : HumidityCheck) : Nat → AverageLoop → AverageLoop
  | 0, l => l
  | n + 1, l => getAverageLoop cfg s n (getAverageBody cfg s l)

/-- The value of `numElements` after the two clamps of `getAverage`
(lines 151-157). -/
def clampElements (cfg : Config) (s : HumidityCheck) (numElements : Int) : Int :=
  let numElements := if numElements > s.RHindexFilled then s.RHindexFilled else numElements
  if numElements > cfg.RHindexSize then cfg.RHindexSize else numElements

/-- The state of the loop of `getAverage` when it ends, for the loop bound
`numElements` (lines 164-177); with a bound that is not positive the body never
runs. -/
def getAverageRun (cfg : Config) (s : HumidityCheck) (numElements : Int) : AverageLoop :=
  -- int currentIndex = RHindex-1; long sum = 0;
  getAverageLoop cfg s numElements.toNat
    { currentIndex := s.RHindex - 1, sum := 0, reads := [] }

/-- `HumidityCheck::getAverage` (lines 149-180). -/
def getAverage (cfg : Config) (s : HumidityCheck) (numElements : Int) : ℚ :=
  let numElements := clampElements cfg s numElements
  -- if (numElements == 0) return 0.0F;
  if numElements = 0 then 0
  -- return (float)sum / numElements;
  else ((getAverageRun cfg s numElements).sum : ℚ) / (numElements : ℚ)

/-- The array indices that `getAverage` reads, in the order it reads them; it
reads nothing when it returns early. -/
def getAverageReads (cfg : Config) (s : HumidityCheck) (numElements : Int) : List Int :=
  if clampElements cfg s numElements = 0 then []
  else (getAverageRun cfg s (clampElements cfg s numElements)).reads

/-- The object after the calls `addRhValue(x)` for the `x` of `xs`, first to last. -/
def pushAll (cfg : Config) (s : HumidityCheck) (xs : List Int) : HumidityCheck :=
  xs.foldl (addRhValue cfg) s

/-- The quotient `(float)10 / d` for a divisor `d ≥ 0`: dividing by zero gives
`+∞`, as in IEEE arithmetic. -/
noncomputable def tenOver (d : ℝ) : EReal :=
  if d = 0 then ⊤ else ((10 / d : ℝ) : EReal)

/-- `HumidityCheck::getTriggerRH` (lines 91-96); `baseline` is a `byte`. -/
noncomputable def getTriggerRH (baseline : Nat) : EReal :=
  -- float triggerRH = (float)baseline + ((float)10/sqrt(baseline*0.1));
  let triggerRH : EReal := ((baseline : ℝ) : EReal) + tenOver (Real.sqrt ((baseline : ℝ) * 0.1))
  -- return min(85, triggerRH);   with   #define min(a,b) ((a)<(b)?(a):(b))
  if (85 : EReal) < triggerRH then 85 else triggerRH

/-- The conversion of the `float` argument of `getTriggerRH` to its `byte`
parameter: the fraction is dropped, and the integer is reduced to 8 bits (C++
defines the conversion only for values in the range of `byte`). -/
def byteOfFloat (x : ℚ) : Nat :=
  (Int.toNat ⌊x⌋) % 256

/-- The test `shortAverage > getTriggerRH(baseline)` of `check` (line 74), worked
out on rationals: above the cap 85, or above `baseline` by a margin `m` with
`m * sqrt(baseline * 0.1) > 10`. With `baseline = 0` the level is the cap. -/
def aboveTrigger (shortAverage : ℚ) (baseline : Nat) : Bool :=
  decide (85 < shortAverage) ||
    (decide (0 < baseline) && decide ((baseline : ℚ) < shortAverage) &&
      decide (1000 < (shortAverage - baseline) ^ 2 * baseline))

/-- The comparison `shortAverage > getTriggerRH(baseline)` is decided by
`aboveTrigger`. -/
instance decideAboveTrigger (shortAverage : ℚ) (baseline : Nat) :
    Decidable (getTriggerRH baseline < ((shortAverage : ℝ) : EReal)) :=
  decidable_of_iff (aboveTrigger shortAverage baseline = true) (by
    have coe85 : ((85 : ℝ) : EReal) = 85 := by norm_cast
    rcases Nat.eq_zero_or_pos baseline with hb | hb
    · subst hb
      have h : (85 : EReal) < ⊤ := by rw [← coe85]; exact EReal.coe_lt_top 85
      have h0 : getTriggerRH 0 = 85 := by simp [getTriggerRH, tenOver, h]
      rw [h0, ← coe85, EReal.coe_lt_coe_iff]
      simp [aboveTrigger]
      exact_mod_cast Iff.rfl
    · have hbR : (0 : ℝ) < (baseline : ℝ) := by exact_mod_cast hb
      have hb' : (0 : ℝ) < (baseline : ℝ) * 0.1 := by positivity
      have hs : 0 < Real.sqrt ((baseline : ℝ) * 0.1) := Real.sqrt_pos.mpr hb'
      have hsq : Real.sqrt ((baseline : ℝ) * 0.1) ^ 2 = (baseline : ℝ) * 0.1 :=
        Real.sq_sqrt hb'.le
      have hT : getTriggerRH baseline
          = ((min 85 ((baseline : ℝ) + 10 / Real.sqrt ((baseline : ℝ) * 0.1)) : ℝ) : EReal) := by
        unfold getTriggerRH
        simp only [tenOver, hs.ne', if_false]
        rw [← EReal.coe_add]
        split_ifs with h
        · rw [← coe85, EReal.coe_lt_coe_iff] at h
          rw [min_eq_left h.le, coe85]
        · rw [← coe85, EReal.coe_lt_coe_iff] at h
          rw [min_eq_right (not_lt.mp h)]
      rw [hT, EReal.coe_lt_coe_iff, min_lt_iff]
      set r := Real.sqrt ((baseline : ℝ) * 0.1) with hr
      have key : ((baseline : ℝ) + 10 / r < (shortAverage : ℝ)) ↔
          ((baseline : ℝ) < (shortAverage : ℝ) ∧
            (1000 : ℝ) < ((shortAverage : ℝ) - baseline) ^ 2 * baseline) := by
        rw [← lt_sub_iff_add_lt', div_lt_iff₀ hs]
        constructor
        · intro h
          have h1 : 0 < ((shortAverage : ℝ) - baseline) := by
            by_contra hn
            push_neg at hn
            nlinarith
          refine ⟨by linarith, ?_⟩
          have h2 : (10 : ℝ) ^ 2 < (((shortAverage : ℝ) - baseline) * r) ^ 2 := by
            apply pow_lt_pow_left₀ h (by norm_num) (by norm_num)
          rw [mul_pow, hsq] at h2
          nlinarith
        · rintro ⟨h1, h2⟩
          have h3 : (10 : ℝ) ^ 2 < (((shortAverage : ℝ) - baseline) * r) ^ 2 := by
            rw [mul_pow, hsq]; nlinarith
          have h4 : 0 ≤ ((shortAverage : ℝ) - baseline) * r := by
            apply mul_nonneg _ hs.le; linarith
          exact lt_of_pow_lt_pow_left₀ 2 h4 h3
      rw [key]
      simp only [aboveTrigger, Bool.or_eq_true, Bool.and_eq_true, decide_eq_true_eq]
      constructor
      · rintro (h | ⟨⟨_, h1⟩, h2⟩)
        · left; exact_mod_cast h
        · right; exact ⟨by exact_mod_cast h1, by exact_mod_cast h2⟩
      · rintro (h | ⟨h1, h2⟩)
        · left; exact_mod_cast h
        · right; exact ⟨⟨hb, by exact_mod_cast h1⟩, by exact_mod_cast h2⟩)

/-- The return code of a successful `dht.read` (library `dht11`). -/
def DHTLIB_OK : Int := 0

/-- What the hardware answers during one call of `check`: the return code of
`dht.read(dht11Pin)`, the humidity that a successful read leaves in
`dht.humidity`, and the value of `analogRead(A0)`. -/
structure Hardware where
  chk : Int
  humidity : Int
  analog : Int

/-- What a call does to the outside world, apart from `Serial` output. -/
inductive Effect
  | sensorRead
  | errorBuzz
  deriving DecidableEq, Repr

/-- `HumidityCheck::dhtRead` (lines 99-122), with `errorBuzz` (lines 125-129)
recorded as an effect. The error codes `DHTLIB_ERROR_CHECKSUM`,
`DHTLIB_ERROR_TIMEOUT` and all others differ in the `Serial` message only. -/
def dhtRead (s : HumidityCheck) (hw : Hardware) : Bool × HumidityCheck × List Effect :=
  -- int chk = dht.read(dht11Pin);
  if hw.chk = DHTLIB_OK then
    -- case DHTLIB_OK: return true;
    (true, { s with humidity := hw.humidity }, [Effect.sensorRead])
  else
    -- errorBuzz(); dht.humidity = analogRead(A0)/10; return false;
    (false, { s with humidity := Int.tdiv hw.analog 10 }, [Effect.sensorRead, Effect.errorBuzz])

/-- `HumidityCheck::check` (lines 25-88) called at the time `now`: the returned
decision, the object after the call, and the effects of the call. -/
def check (cfg : Config) (s : HumidityCheck) (now : Int) (hw : Hardware) :
    Bool × HumidityCheck × List Effect :=
  -- if (now() - lastCalledTime < readingPeriod) return fanOn;
  if now - s.lastCalledTime < cfg.readingPeriod then (s.fanOn, s, [])
  else
    -- if (dhtRead()) {
    match dhtRead s hw with
    | (true, s, fx) =>
      -- lastCalledTime = now(); addRhValue(dht.humidity);
      let s := { s with lastCalledTime := now }
      let s := addRhValue cfg s s.humidity
      let shortAverage := getAverage cfg s cfg.shortPeriod
      let longAverage := getAverage cfg s cfg.longPeriod
      if s.fanOn then
        -- if (shortAverage < triggeredHumidity) { fanOn = false; return false; }
        if shortAverage < s.triggeredHumidity then (false, { s with fanOn := false }, fx)
        -- if ((now() - onTime) > (7200)) { fanOn = false; return false; }
        else if now - s.onTime > 7200 then (false, { s with fanOn := false }, fx)
        -- return fanOn;
        else (s.fanOn, s, fx)
      else
        -- float triggerRH = getTriggerRH(longAverage); if (shortAverage > triggerRH) {
        if getTriggerRH (byteOfFloat longAverage) < ((shortAverage : ℝ) : EReal) then
          -- triggeredHumidity = longAverage; onTime = now(); fanOn = true; return true;
          (true, { s with triggeredHumidity := longAverage, onTime := now, fanOn := true }, fx)
        -- return fanOn;
        else (s.fanOn, s, fx)
    -- } return fanOn;
    | (false, s, fx) => (s.fanOn, s, fx)

/-- The divisor of the division `(float)sum / numElements` that ends `getAverage`
(line 179), or `none` when the function returns at line 160 without dividing. -/
def getAverageDivisor (cfg : Config) (s : HumidityCheck) (numElements : Int) : Option Int :=
  let numElements := clampElements cfg s numElements
  if numElements = 0 then none else some numElements

/-- The array indices written by the calls `addRhValue(x)` for the `x` of `xs`,
first to last: each call writes `RHvalues[RHindex]` (line 134). -/
def writtenSlots (cfg : Config) (s : HumidityCheck) : List Int → List Int
  | [] => []
  | x :: xs => s.RHindex :: writtenSlots cfg (addRhValue cfg s x) xs

/-- The invariant of the history: the cursor `RHindex` is in `[0, RHindexSize)` and
the filled-count `RHindexFilled` is in `[0, RHindexSize]`. -/
def historyInvariant (cfg : Config) (s : HumidityCheck) : Prop :=
  0 ≤ s.RHindex ∧ s.RHindex < cfg.RHindexSize ∧
    0 ≤ s.RHindexFilled ∧ s.RHindexFilled ≤ cfg.RHindexSize

instance decideHistoryInvariant (cfg : Config) (s : HumidityCheck) :
    Decidable (historyInvariant cfg s) := by
  unfold historyInvariant
  infer_instance

/-- The objects that the operations of the class produce from one with an empty
history (cursor 0, filled-count 0): `addRhValue` and `check` change the object;
`getAverage` only returns a value. -/
inductive Reachable (cfg : Config) : HumidityCheck → Prop
  | start (s : HumidityCheck) (hi : s.RHindex = 0) (hf : s.RHindexFilled = 0) : Reachable cfg s
  | push (s : HumidityCheck) (v : Int) (h : Reachable cfg s) : Reachable cfg (addRhValue cfg s v)
  | call (s : HumidityCheck) (now : Int) (hw : Hardware) (h : Reachable cfg s) :
      Reachable cfg (check cfg s now hw).2.1

/-- The local variable `triggerRH` of `getTriggerRH` (line 93), before `min` is
applied to it. -/
noncomputable def triggerSum (baseline : Nat) : EReal :=
  ((baseline : ℝ) : EReal) + tenOver (Real.sqrt ((baseline : ℝ) * 0.1))

/-- An object as it is before the first reading: empty history, fan off, all
counters and times zero. -/
def fresh : HumidityCheck :=
  { RHvalues := fun _ => 0, RHindex := 0, RHindexFilled := 0, fanOn := false,
    triggeredHumidity := 0, onTime := 0, lastCalledTime := 0, humidity := 0 }

/-- A configuration for worked examples: capacity 4, short window 2, long window
4, one reading every 10 seconds. -/
def exampleConfig : Config :=
  { RHindexSize := 4, shortPeriod := 2, longPeriod := 4, readingPeriod := 10 }

/-! ## The rolling history -/

theorem addRhValue_RHvalues (cfg : Config) (s : HumidityCheck) (v : Int) :
    (addRhValue cfg s v).RHvalues = Function.update s.RHvalues s.RHindex v := by
  unfold addRhValue
  dsimp only
  split_ifs <;> rfl

theorem addRhValue_RHindex (cfg : Config) (s : HumidityCheck) (v : Int) :
    (addRhValue cfg s v).RHindex
      = if s.RHindex + 1 ≥ cfg.RHindexSize then 0 else s.RHindex + 1 := by
  unfold addRhValue
  dsimp only
  split_ifs <;> rfl

theorem addRhValue_RHindexFilled (cfg : Config) (s : HumidityCheck) (v : Int) :
    (addRhValue cfg s v).RHindexFilled
      = if s.RHindexFilled < cfg.RHindexSize then s.RHindexFilled + 1 else s.RHindexFilled := by
  unfold addRhValue
  dsimp only
  split_ifs <;> rfl

theorem addRhValue_frame (cfg : Config) (s : HumidityCheck) (v : Int) :
    (addRhValue cfg s v).fanOn = s.fanOn ∧
    (addRhValue cfg s v).triggeredHumidity = s.triggeredHumidity ∧
    (addRhValue cfg s v).onTime = s.onTime ∧
    (addRhValue cfg s v).lastCalledTime = s.lastCalledTime ∧
    (addRhValue cfg s v).humidity = s.humidity := by
  unfold addRhValue
  dsimp only
  split_ifs <;> simp

theorem pushAll_append (cfg : Config) (s : HumidityCheck) (xs : List Int) (v : Int) :
    pushAll cfg s (xs ++ [v]) = addRhValue cfg (pushAll cfg s xs) v := by
  simp [pushAll, List.foldl_append]

/-- The index that the loop of `getAverage` reads when it enters the body with
`currentIndex = c`, for `-1 ≤ c < RHindexSize`. -/
theorem wrap_eq_emod {C c : Int} (hC : 0 < C) (h1 : -1 ≤ c) (h2 : c < C) :
    (if c < 0 then C - 1 else c) = c % C := by
  split_ifs with h
  · have hc : c = -1 := by omega
    subst hc
    have hm : (-1 + C) % C = -1 + C := Int.emod_eq_of_lt (by omega) (by omega)
    rw [← Int.add_emod_self, hm]
    omega
  · rw [Int.emod_eq_of_lt (by omega) h2]

theorem getAverageLoop_spec (cfg : Config) (hC : 0 < cfg.RHindexSize) (s : HumidityCheck)
    (n : Nat) :
    ∀ l : AverageLoop, -1 ≤ l.currentIndex → l.currentIndex < cfg.RHindexSize →
      (getAverageLoop cfg s n l).sum
          = l.sum + ((List.range n).map
              (fun j : Nat => s.RHvalues ((l.currentIndex - j) % cfg.RHindexSize))).sum ∧
      (getAverageLoop cfg s n l).reads
          = l.reads ++ (List.range n).map
              (fun j : Nat => (l.currentIndex - j) % cfg.RHindexSize) := by
  induction n with
  | zero => intro l _ _; simp [getAverageLoop]
  | succ n ih =>
    intro l h1 h2
    have hw := wrap_eq_emod hC h1 h2
    have hlt : l.currentIndex % cfg.RHindexSize < cfg.RHindexSize := Int.emod_lt_of_pos _ hC
    have hge : 0 ≤ l.currentIndex % cfg.RHindexSize := Int.emod_nonneg _ hC.ne'
    have hidx : ∀ j : Nat,
        (l.currentIndex % cfg.RHindexSize - 1 - (j : Int)) % cfg.RHindexSize
          = (l.currentIndex - ((j + 1 : Nat) : Int)) % cfg.RHindexSize := by
      intro j
      have : l.currentIndex % cfg.RHindexSize - 1 - (j : Int)
          = l.currentIndex % cfg.RHindexSize + (-(1 + (j : Int))) := by ring
      rw [this, Int.emod_add_emod]
      congr 1
      push_cast
      ring
    obtain ⟨ihs, ihr⟩ := ih (getAverageBody cfg s l)
      (by simp only [getAverageBody, hw]; omega) (by simp only [getAverageBody, hw]; omega)
    simp only [getAverageLoop]
    rw [ihs, ihr]
    simp only [getAverageBody, hw, hidx]
    rw [List.range_succ_eq_map]
    simp only [List.map_cons, List.map_map, List.sum_cons, Function.comp_def]
    constructor
    · simp [add_assoc]
    · simp

theorem emod_ne_of_close {C a b : Int} (hab : a < b) (hC : b - a < C) : a % C ≠ b % C := by
  intro h
  have h1 : (b - a) % C = 0 := by
    rw [Int.sub_emod, h, sub_self, Int.zero_emod]
  have h2 : (b - a) % C = b - a := Int.emod_eq_of_lt (by omega) hC
  omega

/-- After the pushes `xs` onto a fresh object of capacity `C ≥ 1`: the cursor is
`|xs| mod C`, the filled-count is `min |xs| C`, and the `i`-th pushed value sits
in slot `i mod C` as long as it is among the last `C` pushed. -/
theorem pushAll_spec (cfg : Config) (hC : 0 < cfg.RHindexSize) (s0 : HumidityCheck)
    (h0 : s0.RHindex = 0) (hf : s0.RHindexFilled = 0) (xs : List Int) :
    (pushAll cfg s0 xs).RHindex = (xs.length : Int) % cfg.RHindexSize ∧
    (pushAll cfg s0 xs).RHindexFilled = min (xs.length : Int) cfg.RHindexSize ∧
    ∀ i : Nat, i < xs.length → (xs.length : Int) - i ≤ cfg.RHindexSize →
      (pushAll cfg s0 xs).RHvalues ((i : Int) % cfg.RHindexSize) = xs.getD i 0 := by
  induction xs using List.reverseRecOn with
  | nil => simp [pushAll, h0, hf, hC.le]
  | append_singleton xs v ih =>
    obtain ⟨ihc, ihf, ihv⟩ := ih
    have hlt : (xs.length : Int) % cfg.RHindexSize < cfg.RHindexSize := Int.emod_lt_of_pos _ hC
    have hge : 0 ≤ (xs.length : Int) % cfg.RHindexSize := Int.emod_nonneg _ hC.ne'
    rw [pushAll_append]
    refine ⟨?_, ?_, ?_⟩
    · rw [addRhValue_RHindex, ihc, List.length_append, List.length_singleton]
      push_cast
      split_ifs with h
      · have h' : (xs.length : Int) % cfg.RHindexSize = cfg.RHindexSize - 1 := by omega
        rw [← Int.emod_add_emod, h']
        simp
      · have h1 : ((xs.length : Int) % cfg.RHindexSize + 1) % cfg.RHindexSize
            = (xs.length : Int) % cfg.RHindexSize + 1 := Int.emod_eq_of_lt (by omega) (by omega)
        rw [← Int.emod_add_emod, h1]
    · rw [addRhValue_RHindexFilled, ihf, List.length_append, List.length_singleton]
      push_cast
      split_ifs with h
      · rw [min_lt_iff] at h
        have h' : (xs.length : Int) < cfg.RHindexSize := by omega
        rw [min_eq_left h'.le, min_eq_left (by omega)]
      · rw [min_lt_iff] at h
        push_neg at h
        rw [min_eq_right h.1, min_eq_right (by omega)]
    · intro i hi hret
      rw [List.length_append, List.length_singleton] at hi hret
      push_cast at hret
      rw [addRhValue_RHvalues, ihc]
      rcases Nat.lt_or_ge i xs.length with hlt' | hge'
      · have hne : (i : Int) % cfg.RHindexSize ≠ (xs.length : Int) % cfg.RHindexSize :=
          emod_ne_of_close (by exact_mod_cast hlt') (by omega)
        rw [Function.update_noteq hne, ihv i hlt' (by omega)]
        simp [List.getD_eq_getElem?_getD, List.getElem?_append_left hlt']
      · have hi' : i = xs.length := by omega
        subst hi'
        simp [List.getD_eq_getElem?_getD]

theorem sum_recent (xs : List Int) (n : Nat) (hn : n ≤ xs.length) :
    ((List.range n).map (fun j : Nat => xs.getD (xs.length - 1 - j) 0)).sum
      = (xs.drop (xs.length - n)).sum := by
  induction n with
  | zero => simp
  | succ n ih =>
    rw [List.range_succ, List.map_append, List.sum_append, ih (by omega)]
    have hlt : xs.length - (n + 1) < xs.length := by omega
    rw [List.drop_eq_getElem_cons hlt]
    have e1 : xs.length - (n + 1) + 1 = xs.length - n := by omega
    have e2 : xs.length - 1 - n = xs.length - (n + 1) := by omega
    simp [e1, e2, List.getD_eq_getElem?_getD, List.getElem?_eq_getElem hlt, add_comm]

theorem clampElements_pushAll (cfg : Config) (hC : 0 < cfg.RHindexSize) (s0 : HumidityCheck)
    (h0 : s0.RHindex = 0) (hf : s0.RHindexFilled = 0) (xs : List Int) (k : Int) :
    clampElements cfg (pushAll cfg s0 xs) k = min k (min (xs.length : Int) cfg.RHindexSize) := by
  obtain ⟨_, hfill, _⟩ := pushAll_spec cfg hC s0 h0 hf xs
  unfold clampElements
  rw [hfill]
  simp only [min_def]
  split_ifs <;> omega

/-- The loop of `getAverage`, run `n ≤ min |xs| C` times after the pushes `xs`
onto a fresh object, sums the last `n` values of `xs` and reads the slots
`(|xs| - 1 - j) mod C` for `j = 0, ..., n - 1`. -/
theorem getAverageRun_pushAll (cfg : Config) (hC : 0 < cfg.RHindexSize) (s0 : HumidityCheck)
    (h0 : s0.RHindex = 0) (hf : s0.RHindexFilled = 0) (xs : List Int) (n : Nat)
    (hn : n ≤ xs.length) (hnC : (n : Int) ≤ cfg.RHindexSize) :
    (getAverageRun cfg (pushAll cfg s0 xs) (n : Int)).sum = (xs.drop (xs.length - n)).sum ∧
    (getAverageRun cfg (pushAll cfg s0 xs) (n : Int)).reads
      = (List.range n).map
          (fun j : Nat => ((xs.length - 1 - j : Nat) : Int) % cfg.RHindexSize) := by
  obtain ⟨hcur, _, hval⟩ := pushAll_spec cfg hC s0 h0 hf xs
  have hlt : (xs.length : Int) % cfg.RHindexSize < cfg.RHindexSize := Int.emod_lt_of_pos _ hC
  have hge : 0 ≤ (xs.length : Int) % cfg.RHindexSize := Int.emod_nonneg _ hC.ne'
  obtain ⟨hs, hr⟩ := getAverageLoop_spec cfg hC (pushAll cfg s0 xs) n
    { currentIndex := (pushAll cfg s0 xs).RHindex - 1, sum := 0, reads := [] }
    (by simp only [hcur]; omega) (by simp only [hcur]; omega)
  have hidx : ∀ j ∈ List.range n,
      ((pushAll cfg s0 xs).RHindex - 1 - (j : Int)) % cfg.RHindexSize
        = ((xs.length - 1 - j : Nat) : Int) % cfg.RHindexSize := by
    intro j hj
    have hj' : j < n := List.mem_range.mp hj
    have e : ((xs.length - 1 - j : Nat) : Int) = (xs.length : Int) + (-1 - (j : Int)) := by omega
    rw [hcur, e, ← Int.emod_add_emod (xs.length : Int)]
    congr 1
    ring
  unfold getAverageRun
  simp only [Int.toNat_ofNat]
  constructor
  · rw [hs, ← sum_recent xs n hn, zero_add]
    congr 1
    apply List.map_congr_left
    intro j hj
    have hj' : j < n := List.mem_range.mp hj
    rw [hidx j hj]
    exact hval (xs.length - 1 - j) (by omega) (by omega)
  · rw [hr, List.nil_append]
    exact List.map_congr_left hidx

/-- The average after pushes onto a fresh object: the mean of the last
`n = min k |xs| C` pushed values, and `0` when `n = 0`. -/
theorem getAverage_pushAll (cfg : Config) (hC : 0 < cfg.RHindexSize) (s0 : HumidityCheck)
    (h0 : s0.RHindex = 0) (hf : s0.RHindexFilled = 0) (xs : List Int) (k : Int) (hk : 0 ≤ k) :
    getAverage cfg (pushAll cfg s0 xs) k
      = if min k (min (xs.length : Int) cfg.RHindexSize) = 0 then 0
        else (((xs.drop (xs.length
                  - (min k (min (xs.length : Int) cfg.RHindexSize)).toNat)).sum : Int) : ℚ)
              / ((min k (min (xs.length : Int) cfg.RHindexSize) : Int) : ℚ) := by
  unfold getAverage
  simp only [clampElements_pushAll cfg hC s0 h0 hf]
  have hn0 : 0 ≤ min k (min (xs.length : Int) cfg.RHindexSize) := by
    simp only [min_def]; split_ifs <;> omega
  have hnL : min k (min (xs.length : Int) cfg.RHindexSize) ≤ xs.length := by
    simp only [min_def]; split_ifs <;> omega
  have hnC : min k (min (xs.length : Int) cfg.RHindexSize) ≤ cfg.RHindexSize := by
    simp only [min_def]; split_ifs <;> omega
  generalize min k (min (xs.length : Int) cfg.RHindexSize) = n at hn0 hnL hnC
  obtain ⟨m, rfl⟩ := Int.eq_ofNat_of_zero_le hn0
  split_ifs with h
  · rfl
  · rw [(getAverageRun_pushAll cfg hC s0 h0 hf xs m (by omega) hnC).1]
    simp

theorem drop_eq_map_range (xs : List Int) (m c : Nat) (hlen : xs.length = c + m) :
    xs.drop m = (List.range c).map (fun i : Nat => xs.getD (m + i) 0) := by
  apply List.ext_getElem
  · simp [hlen]
  · intro i h1 h2
    have hi : m + i < xs.length := by
      simp only [List.length_drop] at h1
      omega
    simp [List.getD_eq_getElem?_getD, List.getElem?_eq_getElem hi]

theorem map_range_rotate_perm (f : Int → Int) (c r : Nat) :
    List.Perm ((List.range c).map (fun i : Nat => f (((r + i : Nat) : Int) % (c : Int))))
      ((List.range c).map (fun i : Nat => f (i : Int))) := by
  have h : (List.range c).map (fun i : Nat => f (((r + i : Nat) : Int) % (c : Int)))
      = ((List.range c).rotate r).map (fun i : Nat => f (i : Int)) := by
    apply List.ext_getElem
    · simp
    · intro i h1 h2
      have hi : i < c := by simpa using h1
      simp only [List.getElem_map, List.getElem_range, List.getElem_rotate, List.length_range]
      congr 1
      rw [add_comm r i]
      exact (Int.natCast_mod (i + r) c).symm
  rw [h]
  exact (List.rotate_perm _ r).map _

/-- C1: after any pushes `xs` onto a fresh object (cursor 0, filled-count 0) of
capacity `C ≥ 1`, `getAverage(k)` with `k ≥ 0` is `0` when
`n = min(k, |xs|, C)` is `0`, and otherwise the exact mean (sum divided by `n`)
of the last `n` values of `xs`, wherever the cursor stands. -/
theorem getAverage_mean_of_recent (cfg : Config) (s0 : HumidityCheck) (xs : List Int) (k : Int)
    (hC : 1 ≤ cfg.RHindexSize) (h0 : s0.RHindex = 0) (hf : s0.RHindexFilled = 0)
    (hk : 0 ≤ k) :
    (min k (min (xs.length : Int) cfg.RHindexSize) = 0 →
      getAverage cfg (pushAll cfg s0 xs) k = 0) ∧
    (min k (min (xs.length : Int) cfg.RHindexSize) ≠ 0 →
      getAverage cfg (pushAll cfg s0 xs) k
        = (((xs.drop (xs.length
              - (min k (min (xs.length : Int) cfg.RHindexSize)).toNat)).sum : Int) : ℚ)
          / ((min k (min (xs.length : Int) cfg.RHindexSize) : Int) : ℚ)) := by
  have h := getAverage_pushAll cfg (by omega) s0 h0 hf xs k hk
  constructor
  · intro hn
    rw [h, if_pos hn]
  · intro hn
    rw [h, if_neg hn]

/-- C1, at a wrapping walk: with capacity 3 and the pushes 10, 20, 30, 40 the
cursor is 1, `getAverage(3)` reads the slots 0, 2, 1 and returns
`(20 + 30 + 40) / 3 = 30`. -/
theorem getAverage_mean_of_recent_witness :
    getAverage ⟨3, 2, 3, 10⟩ (pushAll ⟨3, 2, 3, 10⟩ fresh [10, 20, 30, 40]) 3 = 30 ∧
    getAverageReads ⟨3, 2, 3, 10⟩ (pushAll ⟨3, 2, 3, 10⟩ fresh [10, 20, 30, 40]) 3 = [0, 2, 1] := by
  constructor
  · have h := (getAverage_mean_of_recent ⟨3, 2, 3, 10⟩ fresh [10, 20, 30, 40] 3
      (by decide) rfl rfl (by decide)).2 (by decide)
    rw [h]
    simp
    norm_num
  · decide

/-- C9: with the cursor in `[0, C)` (hence capacity `C ≥ 1`) and the filled-count
at most `C`, `addRhValue(v)` stores `v` in the slot at the old cursor, leaves every other slot
unchanged, moves the cursor to `(cursor + 1) mod C` and sets the filled-count to
`min(filled + 1, C)`; the other members are untouched. `addRhValue` is a total
function with no error result. -/
theorem addRhValue_spec (cfg : Config) (s : HumidityCheck) (v : Int)
    (hc0 : 0 ≤ s.RHindex) (hc1 : s.RHindex < cfg.RHindexSize)
    (hf1 : s.RHindexFilled ≤ cfg.RHindexSize) :
    (addRhValue cfg s v).RHvalues s.RHindex = v ∧
    (∀ i : Int, i ≠ s.RHindex → (addRhValue cfg s v).RHvalues i = s.RHvalues i) ∧
    (addRhValue cfg s v).RHindex = (s.RHindex + 1) % cfg.RHindexSize ∧
    (addRhValue cfg s v).RHindexFilled = min (s.RHindexFilled + 1) cfg.RHindexSize ∧
    (addRhValue cfg s v).fanOn = s.fanOn ∧
    (addRhValue cfg s v).triggeredHumidity = s.triggeredHumidity ∧
    (addRhValue cfg s v).onTime = s.onTime ∧
    (addRhValue cfg s v).lastCalledTime = s.lastCalledTime ∧
    (addRhValue cfg s v).humidity = s.humidity := by
  refine ⟨?_, ?_, ?_, ?_, addRhValue_frame cfg s v⟩
  · rw [addRhValue_RHvalues, Function.update_same]
  · intro i hi
    rw [addRhValue_RHvalues, Function.update_noteq hi]
  · rw [addRhValue_RHindex]
    split_ifs with h
    · have h' : s.RHindex + 1 = cfg.RHindexSize := by omega
      rw [h', Int.emod_self]
    · rw [Int.emod_eq_of_lt (by omega) (by omega)]
  · rw [addRhValue_RHindexFilled]
    simp only [min_def]
    split_ifs <;> omega

/-- C9, at the last slot of a full history of capacity 3: the push overwrites
slot 2, the cursor wraps to 0 and the filled-count stays 3. -/
theorem addRhValue_spec_witness :
    (addRhValue ⟨3, 2, 3, 10⟩ { fresh with RHindex := 2, RHindexFilled := 3 } 55).RHvalues 2 = 55 ∧
    (addRhValue ⟨3, 2, 3, 10⟩ { fresh with RHindex := 2, RHindexFilled := 3 } 55).RHindex = 0 ∧
    (addRhValue ⟨3, 2, 3, 10⟩ { fresh with RHindex := 2, RHindexFilled := 3 } 55).RHindexFilled
      = 3 := by
  have h := addRhValue_spec ⟨3, 2, 3, 10⟩ { fresh with RHindex := 2, RHindexFilled := 3 } 55
    (by decide) (by decide) (by decide)
  exact ⟨h.1, h.2.2.1, h.2.2.2.1⟩

/-- C10: after `C + m` pushes (`m ≥ 1`) onto a fresh object of capacity `C ≥ 1`
the filled-count is `C`; the slots, read in a circle from the cursor, hold the
last `C` pushed values in push order, so the slot at the cursor holds the oldest
retained value and the `C` slots hold the last `C` values as a multiset; and
`getAverage(C)` is the mean of those `C` values. -/
theorem pushAll_evicts_oldest (cfg : Config) (s0 : HumidityCheck) (xs : List Int) (m : Nat)
    (hC : 1 ≤ cfg.RHindexSize) (h0 : s0.RHindex = 0) (hf : s0.RHindexFilled = 0)
    (hm : 1 ≤ m) (hlen : (xs.length : Int) = cfg.RHindexSize + m) :
    (pushAll cfg s0 xs).RHindexFilled = cfg.RHindexSize ∧
    (pushAll cfg s0 xs).RHvalues (pushAll cfg s0 xs).RHindex = xs.getD m 0 ∧
    (∀ i : Nat, (i : Int) < cfg.RHindexSize →
      (pushAll cfg s0 xs).RHvalues (((pushAll cfg s0 xs).RHindex + i) % cfg.RHindexSize)
        = xs.getD (m + i) 0) ∧
    List.Perm ((List.range cfg.RHindexSize.toNat).map
        (fun i : Nat => (pushAll cfg s0 xs).RHvalues (i : Int))) (xs.drop m) ∧
    getAverage cfg (pushAll cfg s0 xs) cfg.RHindexSize
      = (((xs.drop m).sum : Int) : ℚ) / (cfg.RHindexSize : ℚ) := by
  have hC' : 0 < cfg.RHindexSize := by omega
  obtain ⟨hcur, hfill, hval⟩ := pushAll_spec cfg hC' s0 h0 hf xs
  obtain ⟨c, hc⟩ := Int.eq_ofNat_of_zero_le hC'.le
  have hlenN : xs.length = c + m := by omega
  have hord : ∀ i : Nat, (i : Int) < cfg.RHindexSize →
      (pushAll cfg s0 xs).RHvalues (((pushAll cfg s0 xs).RHindex + i) % cfg.RHindexSize)
        = xs.getD (m + i) 0 := by
    intro i hi
    have e : ((pushAll cfg s0 xs).RHindex + i) % cfg.RHindexSize
        = ((m + i : Nat) : Int) % cfg.RHindexSize := by
      rw [hcur, Int.emod_add_emod, hlen]
      have : cfg.RHindexSize + (m : Int) + (i : Int)
          = ((m + i : Nat) : Int) + cfg.RHindexSize := by push_cast; ring
      rw [this, Int.add_emod_self]
    rw [e]
    exact hval (m + i) (by omega) (by omega)
  refine ⟨?_, ?_, hord, ?_, ?_⟩
  · rw [hfill, min_eq_right (by omega)]
  · have h := hord 0 (by simpa using hC')
    have hlt : (xs.length : Int) % cfg.RHindexSize < cfg.RHindexSize := Int.emod_lt_of_pos _ hC'
    have hge : 0 ≤ (xs.length : Int) % cfg.RHindexSize := Int.emod_nonneg _ hC'.ne'
    have e : ((pushAll cfg s0 xs).RHindex + ((0 : Nat) : Int)) % cfg.RHindexSize
        = (pushAll cfg s0 xs).RHindex := by
      rw [Nat.cast_zero, add_zero, Int.emod_eq_of_lt (by omega) (by omega)]
    rw [e] at h
    simpa using h
  · rw [drop_eq_map_range xs m c hlenN]
    have hcn : cfg.RHindexSize.toNat = c := by omega
    rw [hcn]
    have hmap : (List.range c).map (fun i : Nat => xs.getD (m + i) 0)
        = (List.range c).map (fun i : Nat =>
            (pushAll cfg s0 xs).RHvalues (((m + i : Nat) : Int) % (c : Int))) := by
      apply List.map_congr_left
      intro i hi
      have hi' : i < c := List.mem_range.mp hi
      rw [← hc]
      exact (hval (m + i) (by omega) (by omega)).symm
    rw [hmap]
    exact (map_range_rotate_perm _ c m).symm
  · have h := getAverage_pushAll cfg hC' s0 h0 hf xs cfg.RHindexSize hC'.le
    have hmin : min cfg.RHindexSize (min (xs.length : Int) cfg.RHindexSize)
        = cfg.RHindexSize := by
      simp only [min_def]; split_ifs <;> omega
    rw [hmin, if_neg hC'.ne'] at h
    have hd : xs.length - cfg.RHindexSize.toNat = m := by omega
    rw [h, hd]

/-- C10, with capacity 3 and the five pushes 10, 20, 30, 40, 50 (`m = 2`): the
cursor slot holds 30, the oldest value kept, and `getAverage(3)` is 40. -/
theorem pushAll_evicts_oldest_witness :
    (pushAll ⟨3, 2, 3, 10⟩ fresh [10, 20, 30, 40, 50]).RHindexFilled = 3 ∧
    (pushAll ⟨3, 2, 3, 10⟩ fresh [10, 20, 30, 40, 50]).RHvalues
      (pushAll ⟨3, 2, 3, 10⟩ fresh [10, 20, 30, 40, 50]).RHindex = 30 ∧
    getAverage ⟨3, 2, 3, 10⟩ (pushAll ⟨3, 2, 3, 10⟩ fresh [10, 20, 30, 40, 50]) 3 = 40 := by
  have h := pushAll_evicts_oldest ⟨3, 2, 3, 10⟩ fresh [10, 20, 30, 40, 50] 2
    (by decide) rfl rfl (by decide) (by decide)
  refine ⟨h.1, ?_, ?_⟩
  · rw [h.2.1]; rfl
  · rw [h.2.2.2.2]
    simp
    norm_num

/-! ## The decision -/

theorem getAverageLoop_congr (cfg : Config) (s1 s2 : HumidityCheck)
    (hv : s1.RHvalues = s2.RHvalues) (n : Nat) :
    ∀ l : AverageLoop, getAverageLoop cfg s1 n l = getAverageLoop cfg s2 n l := by
  induction n with
  | zero => intro l; rfl
  | succ n ih =>
    intro l
    simp only [getAverageLoop, getAverageBody, hv, ih]

/-- The average depends on the history members only. -/
theorem getAverage_congr (cfg : Config) (s1 s2 : HumidityCheck)
    (hv : s1.RHvalues = s2.RHvalues) (hi : s1.RHindex = s2.RHindex)
    (hf : s1.RHindexFilled = s2.RHindexFilled) (k : Int) :
    getAverage cfg s1 k = getAverage cfg s2 k := by
  simp only [getAverage, clampElements, getAverageRun, hi, hf,
    getAverageLoop_congr cfg s1 s2 hv]

/-- The averages that `check` computes after a successful read are those of the
old history with the reading pushed. -/
theorem getAverage_after_read (cfg : Config) (s : HumidityCheck) (now h : Int) (k : Int) :
    getAverage cfg
        (addRhValue cfg { s with humidity := h, lastCalledTime := now } h) k
      = getAverage cfg (addRhValue cfg s h) k := by
  apply getAverage_congr
  · simp only [addRhValue_RHvalues]
  · simp only [addRhValue_RHindex]
  · simp only [addRhValue_RHindexFilled]

/-- The call of `check` behind the rate gate with a successful read, written with
the object `s1` that holds the new reading. -/
theorem check_read_ok (cfg : Config) (s : HumidityCheck) (now : Int) (hw : Hardware)
    (hgate : cfg.readingPeriod ≤ now - s.lastCalledTime) (hok : hw.chk = DHTLIB_OK) :
    check cfg s now hw =
      (if s.fanOn then
        if getAverage cfg (addRhValue cfg s hw.humidity) cfg.shortPeriod < s.triggeredHumidity
          ∨ now - s.onTime > 7200 then
          (false, { addRhValue cfg { s with humidity := hw.humidity, lastCalledTime := now }
                      hw.humidity with fanOn := false }, [Effect.sensorRead])
        else
          (true, addRhValue cfg { s with humidity := hw.humidity, lastCalledTime := now }
                    hw.humidity, [Effect.sensorRead])
      else
        if getTriggerRH (byteOfFloat (getAverage cfg (addRhValue cfg s hw.humidity) cfg.longPeriod))
            < (((getAverage cfg (addRhValue cfg s hw.humidity) cfg.shortPeriod : ℚ) : ℝ) : EReal) then
          (true, { addRhValue cfg { s with humidity := hw.humidity, lastCalledTime := now }
                      hw.humidity with
                    triggeredHumidity :=
                      getAverage cfg (addRhValue cfg s hw.humidity) cfg.longPeriod,
                    onTime := now, fanOn := true }, [Effect.sensorRead])
        else
          (false, addRhValue cfg { s with humidity := hw.humidity, lastCalledTime := now }
                    hw.humidity, [Effect.sensorRead])) := by
  have hg : ¬ (now - s.lastCalledTime < cfg.readingPeriod) := by omega
  obtain ⟨hfan, htrig, hon, -, -⟩ :=
    addRhValue_frame cfg { s with humidity := hw.humidity, lastCalledTime := now } hw.humidity
  simp only [check, dhtRead, hg, hok, if_true, if_false, getAverage_after_read, hfan, htrig, hon]
  cases hs : s.fanOn
  · simp only [Bool.false_eq_true, if_false]
  · simp only [if_true]
    by_cases h1 : getAverage cfg (addRhValue cfg s hw.humidity) cfg.shortPeriod
        < s.triggeredHumidity
    · simp only [h1, if_true, true_or]
    · simp only [h1, if_false, false_or]

/-- C3: an active object (`fanOn`) with stored baseline `b = triggeredHumidity`
and activation time `a = onTime`, called behind the rate gate at time `now` with a
successful read: when the new short average is at least `b` and
`now - a ≤ 7200`, the call returns true, the fan stays on, and
`triggeredHumidity` and `onTime` keep their values. -/
theorem check_active_stays (cfg : Config) (s : HumidityCheck) (now : Int) (hw : Hardware)
    (hon : s.fanOn = true)
    (hgate : cfg.readingPeriod ≤ now - s.lastCalledTime) (hok : hw.chk = DHTLIB_OK)
    (hshort : s.triggeredHumidity
      ≤ getAverage cfg (addRhValue cfg s hw.humidity) cfg.shortPeriod)
    (htime : now - s.onTime ≤ 7200) :
    (check cfg s now hw).1 = true ∧
    (check cfg s now hw).2.1.fanOn = true ∧
    (check cfg s now hw).2.1.triggeredHumidity = s.triggeredHumidity ∧
    (check cfg s now hw).2.1.onTime = s.onTime := by
  obtain ⟨hfan, htrig, hont, -, -⟩ :=
    addRhValue_frame cfg { s with humidity := hw.humidity, lastCalledTime := now } hw.humidity
  have hn : ¬ (getAverage cfg (addRhValue cfg s hw.humidity) cfg.shortPeriod
      < s.triggeredHumidity ∨ now - s.onTime > 7200) := by
    rintro (h | h)
    · exact absurd h (not_lt.mpr hshort)
    · omega
  rw [check_read_ok cfg s now hw hgate hok, if_pos hon, if_neg hn]
  exact ⟨rfl, hfan.trans hon, htrig, hont⟩

/-- C3, the case of the specification: the baseline stored at activation is 40,
the history 40, 40, 42 takes the reading 42, so the short average is 42 and the
long average 41; the trigger level for 41 is not exceeded by 42, and the fan stays
on with the baseline still 40. -/
theorem check_active_stays_witness :
    getAverage exampleConfig
        (addRhValue exampleConfig
          { pushAll exampleConfig fresh [40, 40, 42] with fanOn := true, triggeredHumidity := 40 }
          42) 2 = 42 ∧
    ¬ (getTriggerRH 41 < (((42 : ℚ) : ℝ) : EReal)) ∧
    (check exampleConfig
        { pushAll exampleConfig fresh [40, 40, 42] with fanOn := true, triggeredHumidity := 40 }
        100 ⟨DHTLIB_OK, 42, 0⟩).1 = true ∧
    (check exampleConfig
        { pushAll exampleConfig fresh [40, 40, 42] with fanOn := true, triggeredHumidity := 40 }
        100 ⟨DHTLIB_OK, 42, 0⟩).2.1.triggeredHumidity = 40 := by
  have h := check_active_stays exampleConfig
    { pushAll exampleConfig fresh [40, 40, 42] with fanOn := true, triggeredHumidity := 40 }
    100 ⟨DHTLIB_OK, 42, 0⟩ rfl (by decide) rfl (by decide!) (by decide)
  exact ⟨by decide!, by decide!, h.1, h.2.2.1⟩

/-- C4: an active object with stored baseline `b = triggeredHumidity`, called
behind the rate gate with a successful read: when the short average after the
push is below `b`, the call returns false and the fan is off afterwards, whatever
the time. -/
theorem check_active_recovers (cfg : Config) (s : HumidityCheck) (now : Int) (hw : Hardware)
    (hon : s.fanOn = true)
    (hgate : cfg.readingPeriod ≤ now - s.lastCalledTime) (hok : hw.chk = DHTLIB_OK)
    (hshort : getAverage cfg (addRhValue cfg s hw.humidity) cfg.shortPeriod
      < s.triggeredHumidity) :
    (check cfg s now hw).1 = false ∧ (check cfg s now hw).2.1.fanOn = false := by
  rw [check_read_ok cfg s now hw hgate hok, if_pos hon, if_pos (Or.inl hshort)]
  exact ⟨rfl, rfl⟩

/-- C4, with baseline 40: the history 40, 40, 42 takes the reading 30, the short
average 36 is below 40, and the fan goes off. -/
theorem check_active_recovers_witness :
    (check exampleConfig
        { pushAll exampleConfig fresh [40, 40, 42] with fanOn := true, triggeredHumidity := 40 }
        100 ⟨DHTLIB_OK, 30, 0⟩).1 = false ∧
    (check exampleConfig
        { pushAll exampleConfig fresh [40, 40, 42] with fanOn := true, triggeredHumidity := 40 }
        100 ⟨DHTLIB_OK, 30, 0⟩).2.1.fanOn = false :=
  check_active_recovers exampleConfig
    { pushAll exampleConfig fresh [40, 40, 42] with fanOn := true, triggeredHumidity := 40 }
    100 ⟨DHTLIB_OK, 30, 0⟩ rfl (by decide) rfl (by decide!)

/-- C5: an active object with activation time `a = onTime`, called behind the
rate gate at a time `now` with `now - a > 7200` and a successful read: the call
returns false and the fan is off afterwards, for every reading, history and
stored baseline. -/
theorem check_active_ceiling (cfg : Config) (s : HumidityCheck) (now : Int) (hw : Hardware)
    (hon : s.fanOn = true)
    (hgate : cfg.readingPeriod ≤ now - s.lastCalledTime) (hok : hw.chk = DHTLIB_OK)
    (htime : now - s.onTime > 7200) :
    (check cfg s now hw).1 = false ∧ (check cfg s now hw).2.1.fanOn = false := by
  rw [check_read_ok cfg s now hw hgate hok, if_pos hon, if_pos (Or.inr htime)]
  exact ⟨rfl, rfl⟩

/-- C5, with humidity that never drops: baseline 40, readings of 90 throughout,
activation at time 0 and a call at time 7201. -/
theorem check_active_ceiling_witness :
    (check exampleConfig
        { pushAll exampleConfig fresh [90, 90, 90] with
            fanOn := true, triggeredHumidity := 40, lastCalledTime := 7190 }
        7201 ⟨DHTLIB_OK, 90, 0⟩).1 = false ∧
    (check exampleConfig
        { pushAll exampleConfig fresh [90, 90, 90] with
            fanOn := true, triggeredHumidity := 40, lastCalledTime := 7190 }
        7201 ⟨DHTLIB_OK, 90, 0⟩).2.1.fanOn = false :=
  check_active_ceiling exampleConfig
    { pushAll exampleConfig fresh [90, 90, 90] with
        fanOn := true, triggeredHumidity := 40, lastCalledTime := 7190 }
    7201 ⟨DHTLIB_OK, 90, 0⟩ rfl (by decide) rfl (by decide)

/-- C6: a call at a time `now` with `now - lastCalledTime < readingPeriod` returns
the stored `fanOn`, leaves the whole object as it was (history, activation
members and `lastCalledTime` included) and has no effect: the sensor is not
read. -/
theorem check_rate_gated (cfg : Config) (s : HumidityCheck) (now : Int) (hw : Hardware)
    (hgate : now - s.lastCalledTime < cfg.readingPeriod) :
    check cfg s now hw = (s.fanOn, s, []) := by
  simp only [check, hgate, if_true]

/-- C6, three seconds after a reading with a period of ten seconds. -/
theorem check_rate_gated_witness :
    check exampleConfig { fresh with fanOn := true, lastCalledTime := 100 } 103 ⟨DHTLIB_OK, 99, 0⟩
      = (true, { fresh with fanOn := true, lastCalledTime := 100 }, []) :=
  check_rate_gated exampleConfig { fresh with fanOn := true, lastCalledTime := 100 } 103
    ⟨DHTLIB_OK, 99, 0⟩ (by decide)

/-- C7: a call behind the rate gate whose sensor read fails (any return code but
`DHTLIB_OK`) returns the stored `fanOn`; `lastCalledTime`, the history (slots,
cursor, filled-count) and the activation members keep their values; the effects
are one sensor read followed by one `errorBuzz`. -/
theorem check_read_fails (cfg : Config) (s : HumidityCheck) (now : Int) (hw : Hardware)
    (hgate : cfg.readingPeriod ≤ now - s.lastCalledTime) (hfail : hw.chk ≠ DHTLIB_OK) :
    (check cfg s now hw).1 = s.fanOn ∧
    (check cfg s now hw).2.1.lastCalledTime = s.lastCalledTime ∧
    (check cfg s now hw).2.1.RHvalues = s.RHvalues ∧
    (check cfg s now hw).2.1.RHindex = s.RHindex ∧
    (check cfg s now hw).2.1.RHindexFilled = s.RHindexFilled ∧
    (check cfg s now hw).2.1.fanOn = s.fanOn ∧
    (check cfg s now hw).2.1.triggeredHumidity = s.triggeredHumidity ∧
    (check cfg s now hw).2.1.onTime = s.onTime ∧
    (check cfg s now hw).2.2 = [Effect.sensorRead, Effect.errorBuzz] ∧
    (check cfg s now hw).2.2.count Effect.errorBuzz = 1 := by
  have hg : ¬ (now - s.lastCalledTime < cfg.readingPeriod) := by omega
  have hc : check cfg s now hw
      = (s.fanOn, { s with humidity := Int.tdiv hw.analog 10 },
          [Effect.sensorRead, Effect.errorBuzz]) := by
    simp only [check, dhtRead, hg, hfail, if_false]
  rw [hc]
  exact ⟨rfl, rfl, rfl, rfl, rfl, rfl, rfl, rfl, rfl, rfl⟩

/-- C7, a timeout (return code -2) while the fan is on. -/
theorem check_read_fails_witness :
    (check exampleConfig { fresh with fanOn := true } 100 ⟨-2, 0, 512⟩).1 = true ∧
    (check exampleConfig { fresh with fanOn := true } 100 ⟨-2, 0, 512⟩).2.1.lastCalledTime = 0 ∧
    (check exampleConfig { fresh with fanOn := true } 100 ⟨-2, 0, 512⟩).2.2
      = [Effect.sensorRead, Effect.errorBuzz] := by
  have h := check_read_fails exampleConfig { fresh with fanOn := true } 100 ⟨-2, 0, 512⟩
    (by decide) (by decide)
  exact ⟨h.1, h.2.1, h.2.2.2.2.2.2.2.2.1⟩

/-! ## The trigger level -/

theorem coe_eightyFive : ((85 : ℝ) : EReal) = 85 := by norm_cast

/-- With `baseline = 0` the quotient is `+∞` and `min` returns the cap. -/
theorem getTriggerRH_zero : getTriggerRH 0 = 85 := by
  have h : (85 : EReal) < ⊤ := by rw [← coe_eightyFive]; exact EReal.coe_lt_top 85
  simp [getTriggerRH, tenOver, h]

/-- With `baseline > 0` no division by zero occurs and the level is the real
number `min(85, baseline + 10 / sqrt(baseline * 0.1))`. -/
theorem getTriggerRH_pos {b : Nat} (hb : 0 < b) :
    getTriggerRH b = ((min 85 ((b : ℝ) + 10 / Real.sqrt ((b : ℝ) * 0.1)) : ℝ) : EReal) := by
  have hb' : (0 : ℝ) < (b : ℝ) * 0.1 := by positivity
  have hs : 0 < Real.sqrt ((b : ℝ) * 0.1) := Real.sqrt_pos.mpr hb'
  unfold getTriggerRH
  simp only [tenOver, hs.ne', if_false]
  rw [← EReal.coe_add]
  split_ifs with h
  · rw [← coe_eightyFive, EReal.coe_lt_coe_iff] at h
    rw [min_eq_left h.le, coe_eightyFive]
  · rw [← coe_eightyFive, EReal.coe_lt_coe_iff] at h
    rw [min_eq_right (not_lt.mp h)]

theorem sqrt_one_tenth_mul (b r : ℝ) (hr : 0 ≤ r) (h : r ^ 2 = b * 0.1) :
    Real.sqrt (b * 0.1) = r := by
  rw [← h, Real.sqrt_sq hr]

/-- C8: for every baseline `b > 0`, `getTriggerRH(b)` is the real number
`min(85, b + 10 / sqrt(b * 0.1))`, so it is at most 85, and it is exactly 85
whenever `b + 10 / sqrt(b * 0.1)` exceeds 85; `getTriggerRH(10) = 20`,
`getTriggerRH(40) = 45`, and `getTriggerRH(80)` is within 0.01 of 83.54. -/
theorem getTriggerRH_spec (b : Nat) (hb : 0 < b) :
    (getTriggerRH b = ((min 85 ((b : ℝ) + 10 / Real.sqrt ((b : ℝ) * 0.1)) : ℝ) : EReal) ∧
      getTriggerRH b ≤ 85 ∧
      (85 < (b : ℝ) + 10 / Real.sqrt ((b : ℝ) * 0.1) → getTriggerRH b = 85)) ∧
    getTriggerRH 10 = 20 ∧
    getTriggerRH 40 = 45 ∧
    ∃ x : ℝ, getTriggerRH 80 = (x : EReal) ∧ |x - 83.54| < 0.01 := by
  refine ⟨?_, ?_, ?_, ?_⟩
  · refine ⟨getTriggerRH_pos hb, ?_, ?_⟩
    · rw [getTriggerRH_pos hb, ← coe_eightyFive, EReal.coe_le_coe_iff]
      exact min_le_left _ _
    · intro h
      rw [getTriggerRH_pos hb, min_eq_left h.le, coe_eightyFive]
  · rw [getTriggerRH_pos (by norm_num)]
    have h : Real.sqrt (((10 : Nat) : ℝ) * 0.1) = 1 :=
      sqrt_one_tenth_mul _ 1 (by norm_num) (by norm_num)
    rw [h]
    norm_num
    norm_cast
  · rw [getTriggerRH_pos (by norm_num)]
    have h : Real.sqrt (((40 : Nat) : ℝ) * 0.1) = 2 :=
      sqrt_one_tenth_mul _ 2 (by norm_num) (by norm_num)
    rw [h]
    norm_num
    norm_cast
  · refine ⟨_, getTriggerRH_pos (by norm_num), ?_⟩
    have h8 : (0 : ℝ) < ((80 : Nat) : ℝ) * 0.1 := by norm_num
    have hs : 0 < Real.sqrt (((80 : Nat) : ℝ) * 0.1) := Real.sqrt_pos.mpr h8
    have hsq : Real.sqrt (((80 : Nat) : ℝ) * 0.1) ^ 2 = 8 := by
      rw [Real.sq_sqrt h8.le]; norm_num
    set r := Real.sqrt (((80 : Nat) : ℝ) * 0.1) with hr
    have hlo : (2.82 : ℝ) < r := by nlinarith
    have hhi : r < (2.83 : ℝ) := by nlinarith
    have h1 : (3.533 : ℝ) < 10 / r := by
      rw [lt_div_iff₀ hs]; nlinarith
    have h2 : 10 / r < (3.547 : ℝ) := by
      rw [div_lt_iff₀ hs]; nlinarith
    have hmin : min (85 : ℝ) (((80 : Nat) : ℝ) + 10 / r) = ((80 : Nat) : ℝ) + 10 / r := by
      apply min_eq_right
      push_cast
      linarith
    rw [hmin, abs_lt]
    push_cast
    constructor <;> linarith

/-- C8, at the cap: for the baseline 90 the sum `90 + 10 / sqrt(9)` exceeds 85 and
the level is 85. -/
theorem getTriggerRH_spec_witness :
    (0 : Nat) < 90 ∧ getTriggerRH 90 = 85 := by
  have h3 : Real.sqrt (((90 : Nat) : ℝ) * 0.1) = 3 :=
    sqrt_one_tenth_mul _ 3 (by norm_num) (by norm_num)
  exact ⟨by decide, (getTriggerRH_spec 90 (by decide)).1.2.2 (by rw [h3]; norm_num)⟩

theorem byteOfFloat_of_range (x : ℚ) (h1 : 1 ≤ x) (h2 : x < 256) :
    0 < byteOfFloat x ∧ ((byteOfFloat x : Nat) : ℝ) = ((⌊x⌋ : Int) : ℝ) := by
  have hlo : (1 : Int) ≤ ⌊x⌋ := Int.le_floor.mpr (by exact_mod_cast h1)
  have hhi : ⌊x⌋ < (256 : Int) := Int.floor_lt.mpr (by exact_mod_cast h2)
  have hb : ((byteOfFloat x : Nat) : Int) = ⌊x⌋ := by
    unfold byteOfFloat
    omega
  constructor
  · omega
  · exact_mod_cast hb

/-- C2 as stated fails: with the history 36, 36, 45 and the reading 46 the short
average is 45.5 and the long average 40.75. The call switches the fan on, although
45.5 is not above `min(85, 40.75 + 10 / sqrt(40.75 * 0.1))`, which is about
45.70: the level compared against is that of the baseline 40, which is 45. -/
theorem check_trigger_counterexample :
    (pushAll exampleConfig fresh [36, 36, 45]).fanOn = false ∧
    getAverage exampleConfig
      (addRhValue exampleConfig (pushAll exampleConfig fresh [36, 36, 45]) 46)
      exampleConfig.shortPeriod = 91 / 2 ∧
    getAverage exampleConfig
      (addRhValue exampleConfig (pushAll exampleConfig fresh [36, 36, 45]) 46)
      exampleConfig.longPeriod = 163 / 4 ∧
    (check exampleConfig (pushAll exampleConfig fresh [36, 36, 45]) 100 ⟨DHTLIB_OK, 46, 0⟩).1
      = true ∧
    (check exampleConfig (pushAll exampleConfig fresh [36, 36, 45]) 100
      ⟨DHTLIB_OK, 46, 0⟩).2.1.fanOn = true ∧
    ¬ ((91 / 2 : ℝ) > min 85 ((163 / 4 : ℝ) + 10 / Real.sqrt ((163 / 4 : ℝ) * 0.1))) := by
  refine ⟨rfl, by decide!, by decide!, by decide!, by decide!, ?_⟩
  have h0 : (0 : ℝ) < (163 / 4 : ℝ) * 0.1 := by norm_num
  have hs : 0 < Real.sqrt ((163 / 4 : ℝ) * 0.1) := Real.sqrt_pos.mpr h0
  have hsq : Real.sqrt ((163 / 4 : ℝ) * 0.1) ^ 2 = (163 / 4 : ℝ) * 0.1 := Real.sq_sqrt h0.le
  set r := Real.sqrt ((163 / 4 : ℝ) * 0.1) with hr
  have hr2 : r < (2.1 : ℝ) := by nlinarith
  have h1 : (4.75 : ℝ) ≤ 10 / r := by
    rw [le_div_iff₀ hs]; nlinarith
  rw [gt_iff_lt, not_lt, le_min_iff]
  constructor
  · norm_num
  · linarith

/-- C2, amended: an idle object (`fanOn` false) called behind the rate gate with a
successful read. With `S` and `L` the short and long averages after the push, the
call returns true and leaves the fan on exactly when `S` is above
`getTriggerRH` of `L` converted to a `byte`; for `1 ≤ L < 256` that level is
`min(85, ⌊L⌋ + 10 / sqrt(⌊L⌋ * 0.1))`. When the call returns true,
`triggeredHumidity` is `L` itself and `onTime` is the time of the call. -/
theorem check_idle_triggers (cfg : Config) (s : HumidityCheck) (now : Int) (hw : Hardware)
    (hoff : s.fanOn = false)
    (hgate : cfg.readingPeriod ≤ now - s.lastCalledTime) (hok : hw.chk = DHTLIB_OK) :
    (((check cfg s now hw).2.1.fanOn = true ∧ (check cfg s now hw).1 = true) ↔
      getTriggerRH
          (byteOfFloat (getAverage cfg (addRhValue cfg s hw.humidity) cfg.longPeriod))
        < (((getAverage cfg (addRhValue cfg s hw.humidity) cfg.shortPeriod : ℚ) : ℝ) : EReal)) ∧
    (1 ≤ getAverage cfg (addRhValue cfg s hw.humidity) cfg.longPeriod →
      getAverage cfg (addRhValue cfg s hw.humidity) cfg.longPeriod < 256 →
      getTriggerRH
          (byteOfFloat (getAverage cfg (addRhValue cfg s hw.humidity) cfg.longPeriod))
        = ((min 85
            (((⌊getAverage cfg (addRhValue cfg s hw.humidity) cfg.longPeriod⌋ : Int) : ℝ)
              + 10 / Real.sqrt
                (((⌊getAverage cfg (addRhValue cfg s hw.humidity) cfg.longPeriod⌋ : Int) : ℝ)
                  * 0.1)) : ℝ) : EReal)) ∧
    ((check cfg s now hw).1 = true →
      (check cfg s now hw).2.1.triggeredHumidity
        = getAverage cfg (addRhValue cfg s hw.humidity) cfg.longPeriod ∧
      (check cfg s now hw).2.1.onTime = now) := by
  have hoff' : ¬ (s.fanOn = true) := by simp [hoff]
  obtain ⟨hfan, -, -, -, -⟩ :=
    addRhValue_frame cfg { s with humidity := hw.humidity, lastCalledTime := now } hw.humidity
  have hfan' : (addRhValue cfg { s with humidity := hw.humidity, lastCalledTime := now }
      hw.humidity).fanOn = false := hfan.trans hoff
  rw [check_read_ok cfg s now hw hgate hok, if_neg hoff']
  refine ⟨?_, ?_, ?_⟩
  · split_ifs with h
    · exact ⟨fun _ => h, fun _ => ⟨rfl, rfl⟩⟩
    · constructor
      · rintro ⟨-, h2⟩
        exact absurd h2 (by simp)
      · intro h'
        exact absurd h' h
  · intro h1 h2
    obtain ⟨hpos, hcast⟩ := byteOfFloat_of_range _ h1 h2
    rw [getTriggerRH_pos hpos, hcast]
  · split_ifs with h
    · intro _
      exact ⟨rfl, rfl⟩
    · intro h'
      exact absurd h' (by simp)

/-- C2 amended, at the history 36, 36, 45 with the reading 46: the long average
40.75 is compared as the baseline 40, whose level 45 is below the short average
45.5, so the fan goes on with `triggeredHumidity = 40.75` and `onTime = 100`. -/
theorem check_idle_triggers_witness :
    byteOfFloat (163 / 4) = 40 ∧
    (check exampleConfig (pushAll exampleConfig fresh [36, 36, 45]) 100 ⟨DHTLIB_OK, 46, 0⟩).1
      = true ∧
    (check exampleConfig (pushAll exampleConfig fresh [36, 36, 45]) 100
      ⟨DHTLIB_OK, 46, 0⟩).2.1.triggeredHumidity = 163 / 4 ∧
    (check exampleConfig (pushAll exampleConfig fresh [36, 36, 45]) 100
      ⟨DHTLIB_OK, 46, 0⟩).2.1.onTime = 100 := by
  have h := check_idle_triggers exampleConfig (pushAll exampleConfig fresh [36, 36, 45]) 100
    ⟨DHTLIB_OK, 46, 0⟩ rfl (by decide) rfl
  have hfire : (check exampleConfig (pushAll exampleConfig fresh [36, 36, 45]) 100
      ⟨DHTLIB_OK, 46, 0⟩).1 = true := (h.1.mpr (by decide!)).2
  have hl : getAverage exampleConfig
      (addRhValue exampleConfig (pushAll exampleConfig fresh [36, 36, 45]) 46)
      exampleConfig.longPeriod = 163 / 4 := by decide!
  refine ⟨by decide!, hfire, ?_, (h.2.2 hfire).2⟩
  rw [(h.2.2 hfire).1]
  exact hl

/-! ## Bounds and reads of the average -/

theorem exists_least_mem (l : List Int) (hl : l ≠ []) : ∃ a ∈ l, ∀ x ∈ l, a ≤ x := by
  induction l with
  | nil => exact absurd rfl hl
  | cons y ys ih =>
    rcases ys with _ | ⟨z, zs⟩
    · exact ⟨y, by simp, by simp⟩
    · obtain ⟨a, ha, hmin⟩ := ih (by simp)
      rcases le_total y a with h | h
      · refine ⟨y, by simp, ?_⟩
        intro x hx
        rcases List.mem_cons.mp hx with rfl | hx'
        · exact le_rfl
        · exact h.trans (hmin x hx')
      · refine ⟨a, List.mem_cons_of_mem _ ha, ?_⟩
        intro x hx
        rcases List.mem_cons.mp hx with rfl | hx'
        · exact h
        · exact hmin x hx'

theorem exists_greatest_mem (l : List Int) (hl : l ≠ []) : ∃ b ∈ l, ∀ x ∈ l, x ≤ b := by
  induction l with
  | nil => exact absurd rfl hl
  | cons y ys ih =>
    rcases ys with _ | ⟨z, zs⟩
    · exact ⟨y, by simp, by simp⟩
    · obtain ⟨b, hb, hmax⟩ := ih (by simp)
      rcases le_total b y with h | h
      · refine ⟨y, by simp, ?_⟩
        intro x hx
        rcases List.mem_cons.mp hx with rfl | hx'
        · exact le_rfl
        · exact (hmax x hx').trans h
      · refine ⟨b, List.mem_cons_of_mem _ hb, ?_⟩
        intro x hx
        rcases List.mem_cons.mp hx with rfl | hx'
        · exact h
        · exact hmax x hx'

theorem length_mul_le_sum (l : List Int) (a : Int) (h : ∀ x ∈ l, a ≤ x) :
    (l.length : Int) * a ≤ l.sum := by
  induction l with
  | nil => simp
  | cons y ys ih =>
    have h1 := h y (by simp)
    have h2 := ih (fun x hx => h x (List.mem_cons_of_mem _ hx))
    simp only [List.length_cons, List.sum_cons]
    push_cast
    linarith

theorem sum_le_length_mul (l : List Int) (b : Int) (h : ∀ x ∈ l, x ≤ b) :
    l.sum ≤ (l.length : Int) * b := by
  induction l with
  | nil => simp
  | cons y ys ih =>
    have h1 := h y (by simp)
    have h2 := ih (fun x hx => h x (List.mem_cons_of_mem _ hx))
    simp only [List.length_cons, List.sum_cons]
    push_cast
    linarith

/-- C11: after at least one push onto a fresh object of capacity `C ≥ 1`, and for
a window `k ≥ 1`, `getAverage(k)` lies between the least and the greatest of the
last `n = min(k, |xs|, C)` pushed values (`min(|xs|, C)` is the filled-count). -/
theorem getAverage_between_min_max (cfg : Config) (s0 : HumidityCheck) (xs : List Int)
    (k : Int) (hC : 1 ≤ cfg.RHindexSize) (h0 : s0.RHindex = 0) (hf : s0.RHindexFilled = 0)
    (hxs : xs ≠ []) (hk : 1 ≤ k) :
    ∃ lo ∈ xs.drop (xs.length - (min k (min (xs.length : Int) cfg.RHindexSize)).toNat),
    ∃ hi ∈ xs.drop (xs.length - (min k (min (xs.length : Int) cfg.RHindexSize)).toNat),
      (∀ x ∈ xs.drop (xs.length - (min k (min (xs.length : Int) cfg.RHindexSize)).toNat),
        lo ≤ x ∧ x ≤ hi) ∧
      (lo : ℚ) ≤ getAverage cfg (pushAll cfg s0 xs) k ∧
      getAverage cfg (pushAll cfg s0 xs) k ≤ (hi : ℚ) := by
  have hlen : 0 < xs.length := List.length_pos.mpr hxs
  have hn1 : 1 ≤ min k (min (xs.length : Int) cfg.RHindexSize) := by
    simp only [min_def]; split_ifs <;> omega
  have hnL : min k (min (xs.length : Int) cfg.RHindexSize) ≤ xs.length := by
    simp only [min_def]; split_ifs <;> omega
  rw [getAverage_pushAll cfg (by omega) s0 h0 hf xs k (by omega), if_neg (by omega)]
  generalize min k (min (xs.length : Int) cfg.RHindexSize) = n at hn1 hnL
  obtain ⟨m, rfl⟩ := Int.eq_ofNat_of_zero_le (by omega : 0 ≤ n)
  simp only [Int.toNat_ofNat]
  have hm1 : 1 ≤ m := by omega
  have hmL : m ≤ xs.length := by omega
  have hdl : (xs.drop (xs.length - m)).length = m := by
    rw [List.length_drop]; omega
  have hne : xs.drop (xs.length - m) ≠ [] := by
    intro h
    rw [h] at hdl
    simp at hdl
    omega
  obtain ⟨lo, hlo, hmin⟩ := exists_least_mem _ hne
  obtain ⟨hi, hhi, hmax⟩ := exists_greatest_mem _ hne
  have h1 := length_mul_le_sum _ lo hmin
  have h2 := sum_le_length_mul _ hi hmax
  rw [hdl] at h1 h2
  have hmq : (0 : ℚ) < ((m : Int) : ℚ) := by exact_mod_cast hm1
  refine ⟨lo, hlo, hi, hhi, fun x hx => ⟨hmin x hx, hmax x hx⟩, ?_, ?_⟩
  · rw [le_div_iff₀ hmq]
    have : ((lo * (m : Int) : Int) : ℚ) ≤ (((xs.drop (xs.length - m)).sum : Int) : ℚ) := by
      exact_mod_cast (by linarith : lo * (m : Int) ≤ (xs.drop (xs.length - m)).sum)
    simpa using this
  · rw [div_le_iff₀ hmq]
    have : (((xs.drop (xs.length - m)).sum : Int) : ℚ) ≤ ((hi * (m : Int) : Int) : ℚ) := by
      exact_mod_cast (by linarith : (xs.drop (xs.length - m)).sum ≤ hi * (m : Int))
    simpa using this

/-- C11, with capacity 3 and the pushes 10, 20, 30, 40: `getAverage(2)` is 35,
between 30 and 40. -/
theorem getAverage_between_min_max_witness :
    ∃ lo ∈ [(30 : Int), 40], ∃ hi ∈ [(30 : Int), 40],
      (∀ x ∈ [(30 : Int), 40], lo ≤ x ∧ x ≤ hi) ∧
      (lo : ℚ) ≤ getAverage ⟨3, 2, 3, 10⟩ (pushAll ⟨3, 2, 3, 10⟩ fresh [10, 20, 30, 40]) 2 ∧
      getAverage ⟨3, 2, 3, 10⟩ (pushAll ⟨3, 2, 3, 10⟩ fresh [10, 20, 30, 40]) 2 ≤ (hi : ℚ) :=
  getAverage_between_min_max ⟨3, 2, 3, 10⟩ fresh [10, 20, 30, 40] 2
    (by decide) rfl rfl (by decide) (by decide)

/-- C12: with a filled-count of 0 and capacity `C ≥ 1`, whatever the slots hold
and whatever the integer `k` is, `getAverage(k)` returns 0 and reads no slot. For
`k ≥ 0` it returns before the division; for `k < 0` the loop body never runs and
the division is `0 / k`, so no division by zero occurs. -/
theorem getAverage_cold_start (cfg : Config) (s : HumidityCheck) (k : Int)
    (hC : 1 ≤ cfg.RHindexSize) (hf : s.RHindexFilled = 0) :
    getAverage cfg s k = 0 ∧
    getAverageReads cfg s k = [] ∧
    getAverageDivisor cfg s k ≠ some 0 ∧
    (0 ≤ k → getAverageDivisor cfg s k = none) ∧
    (k < 0 → getAverageDivisor cfg s k = some k ∧ (getAverageRun cfg s k).sum = 0) := by
  have hclamp : clampElements cfg s k = if 0 < k then 0 else k := by
    unfold clampElements
    rw [hf]
    dsimp only
    split_ifs <;> omega
  have hrun : ∀ n : Int, n ≤ 0 → getAverageRun cfg s n
      = { currentIndex := s.RHindex - 1, sum := 0, reads := [] } := by
    intro n hn
    unfold getAverageRun
    rw [Int.toNat_of_nonpos hn]
    rfl
  unfold getAverage getAverageReads getAverageDivisor
  simp only [hclamp]
  rcases lt_trichotomy k 0 with hneg | hk0 | hpos
  · have h1 : ¬ (0 < k) := by omega
    have h2 : k ≠ 0 := by omega
    rw [if_neg h1, if_neg h2, if_neg h2, if_neg h2, hrun k hneg.le]
    refine ⟨by simp, rfl, ?_, fun h => absurd h (by omega), fun _ => ⟨rfl, rfl⟩⟩
    intro h
    exact h2 (Option.some.inj h)
  · subst hk0
    simp
  · rw [if_pos hpos, if_pos rfl, if_pos rfl, if_pos rfl]
    exact ⟨rfl, rfl, by simp, fun _ => rfl, fun h => absurd h (by omega)⟩

/-- C12, on the fresh object with capacity 4: the windows 7 (above the capacity),
0 and -2 all give the average 0 with no slot read. -/
theorem getAverage_cold_start_witness :
    getAverage exampleConfig fresh 7 = 0 ∧ getAverageReads exampleConfig fresh 7 = [] ∧
    getAverage exampleConfig fresh 0 = 0 ∧
    getAverage exampleConfig fresh (-2) = 0 ∧ getAverageReads exampleConfig fresh (-2) = [] ∧
    getAverageDivisor exampleConfig fresh (-2) = some (-2) := by
  have h7 := getAverage_cold_start exampleConfig fresh 7 (by decide) rfl
  have h0 := getAverage_cold_start exampleConfig fresh 0 (by decide) rfl
  have hm := getAverage_cold_start exampleConfig fresh (-2) (by decide) rfl
  exact ⟨h7.1, h7.2.1, h0.1, hm.1, hm.2.1, (hm.2.2.2.2 (by decide)).1⟩

theorem writtenSlots_append (cfg : Config) (xs : List Int) (v : Int) :
    ∀ s : HumidityCheck, writtenSlots cfg s (xs ++ [v])
      = writtenSlots cfg s xs ++ [(pushAll cfg s xs).RHindex] := by
  induction xs with
  | nil => intro s; simp [writtenSlots, pushAll]
  | cons x xs ih =>
    intro s
    have h := ih (addRhValue cfg s x)
    show s.RHindex :: writtenSlots cfg (addRhValue cfg s x) (xs ++ [v]) = _
    rw [h]
    rfl

/-- The `i`-th push onto a fresh object writes slot `i mod C`. -/
theorem writtenSlots_fresh (cfg : Config) (hC : 0 < cfg.RHindexSize) (s0 : HumidityCheck)
    (h0 : s0.RHindex = 0) (hf : s0.RHindexFilled = 0) (xs : List Int) :
    writtenSlots cfg s0 xs
      = (List.range xs.length).map (fun i : Nat => (i : Int) % cfg.RHindexSize) := by
  induction xs using List.reverseRecOn with
  | nil => simp [writtenSlots]
  | append_singleton xs v ih =>
    rw [writtenSlots_append, ih, (pushAll_spec cfg hC s0 h0 hf xs).1,
      List.length_append, List.length_singleton, List.range_succ, List.map_append]
    simp

/-- C14: after any pushes `xs` onto a fresh object of capacity `C ≥ 1`, and for
every integer `k`, each array index that `getAverage(k)` reads is in `[0, C)` and
is one of the indices written by those pushes; it reads at most
`min(|xs|, C)` slots, also when `k` is larger. -/
theorem getAverage_reads_written (cfg : Config) (s0 : HumidityCheck) (xs : List Int) (k : Int)
    (hC : 1 ≤ cfg.RHindexSize) (h0 : s0.RHindex = 0) (hf : s0.RHindexFilled = 0) :
    (∀ i ∈ getAverageReads cfg (pushAll cfg s0 xs) k,
      0 ≤ i ∧ i < cfg.RHindexSize ∧ i ∈ writtenSlots cfg s0 xs) ∧
    ((getAverageReads cfg (pushAll cfg s0 xs) k).length : Int)
      ≤ min (xs.length : Int) cfg.RHindexSize := by
  have hC' : 0 < cfg.RHindexSize := by omega
  have hclamp := clampElements_pushAll cfg hC' s0 h0 hf xs k
  unfold getAverageReads
  rw [hclamp]
  by_cases hz : min k (min (xs.length : Int) cfg.RHindexSize) = 0
  · simp only [hz, if_true]
    refine ⟨by simp, ?_⟩
    simp only [List.length_nil, min_def]
    split_ifs <;> omega
  · simp only [hz, if_false]
    by_cases hneg : min k (min (xs.length : Int) cfg.RHindexSize) < 0
    · have hrun : (getAverageRun cfg (pushAll cfg s0 xs)
          (min k (min (xs.length : Int) cfg.RHindexSize))).reads = [] := by
        unfold getAverageRun
        rw [Int.toNat_of_nonpos hneg.le]
        rfl
      rw [hrun]
      refine ⟨by simp, ?_⟩
      simp only [List.length_nil, min_def]
      split_ifs <;> omega
    · have hnL : min k (min (xs.length : Int) cfg.RHindexSize) ≤ xs.length := by
        simp only [min_def]; split_ifs <;> omega
      have hnC : min k (min (xs.length : Int) cfg.RHindexSize) ≤ cfg.RHindexSize := by
        simp only [min_def]; split_ifs <;> omega
      generalize min k (min (xs.length : Int) cfg.RHindexSize) = n at hz hneg hnL hnC
      obtain ⟨m, rfl⟩ := Int.eq_ofNat_of_zero_le (by omega : 0 ≤ n)
      rw [(getAverageRun_pushAll cfg hC' s0 h0 hf xs m (by omega) hnC).2,
        writtenSlots_fresh cfg hC' s0 h0 hf xs]
      constructor
      · intro i hi
        obtain ⟨j, hj, rfl⟩ := List.mem_map.mp hi
        have hj' : j < m := List.mem_range.mp hj
        refine ⟨Int.emod_nonneg _ hC'.ne', Int.emod_lt_of_pos _ hC', ?_⟩
        exact List.mem_map.mpr ⟨xs.length - 1 - j, List.mem_range.mpr (by omega), rfl⟩
      · simp only [List.length_map, List.length_range, min_def]
        split_ifs <;> omega

/-- C14, with capacity 4 after the two pushes 10, 20 and the window 9: the reads
are the slots 1 and 0, both written. -/
theorem getAverage_reads_written_witness :
    getAverageReads exampleConfig (pushAll exampleConfig fresh [10, 20]) 9 = [1, 0] ∧
    writtenSlots exampleConfig fresh [10, 20] = [0, 1] ∧
    ∀ i ∈ getAverageReads exampleConfig (pushAll exampleConfig fresh [10, 20]) 9,
      0 ≤ i ∧ i < exampleConfig.RHindexSize ∧ i ∈ writtenSlots exampleConfig fresh [10, 20] :=
  ⟨by decide, by decide,
    (getAverage_reads_written exampleConfig fresh [10, 20] 9 (by decide) rfl rfl).1⟩

/-! ## More on single calls -/

/-- The rate-gated call, as an equation. -/
theorem check_gated_eq (cfg : Config) (s : HumidityCheck) (now : Int) (hw : Hardware)
    (hgate : now - s.lastCalledTime < cfg.readingPeriod) :
    check cfg s now hw = (s.fanOn, s, []) := by
  simp only [check, hgate, if_true]

/-- The call behind the rate gate whose read fails, as an equation. -/
theorem check_failed_read_eq (cfg : Config) (s : HumidityCheck) (now : Int) (hw : Hardware)
    (hgate : cfg.readingPeriod ≤ now - s.lastCalledTime) (hfail : hw.chk ≠ DHTLIB_OK) :
    check cfg s now hw
      = (s.fanOn, { s with humidity := Int.tdiv hw.analog 10 },
          [Effect.sensorRead, Effect.errorBuzz]) := by
  have hg : ¬ (now - s.lastCalledTime < cfg.readingPeriod) := by omega
  simp only [check, dhtRead, hg, hfail, if_false]

/-! ## The invariant of the history -/

theorem addRhValue_invariant (cfg : Config) (s : HumidityCheck) (v : Int)
    (h : historyInvariant cfg s) : historyInvariant cfg (addRhValue cfg s v) := by
  obtain ⟨h1, h2, h3, h4⟩ := h
  unfold historyInvariant
  rw [addRhValue_RHindex, addRhValue_RHindexFilled]
  refine ⟨?_, ?_, ?_, ?_⟩ <;> split_ifs <;> omega

/-- After `check` the history is the old one, or the old one with the reading
pushed. -/
theorem check_history (cfg : Config) (s : HumidityCheck) (now : Int) (hw : Hardware) :
    ((check cfg s now hw).2.1.RHvalues = s.RHvalues ∧
      (check cfg s now hw).2.1.RHindex = s.RHindex ∧
      (check cfg s now hw).2.1.RHindexFilled = s.RHindexFilled) ∨
    ((check cfg s now hw).2.1.RHvalues = (addRhValue cfg s hw.humidity).RHvalues ∧
      (check cfg s now hw).2.1.RHindex = (addRhValue cfg s hw.humidity).RHindex ∧
      (check cfg s now hw).2.1.RHindexFilled = (addRhValue cfg s hw.humidity).RHindexFilled) := by
  by_cases hgate : now - s.lastCalledTime < cfg.readingPeriod
  · left
    rw [check_gated_eq cfg s now hw hgate]
    exact ⟨rfl, rfl, rfl⟩
  · by_cases hok : hw.chk = DHTLIB_OK
    · right
      rw [check_read_ok cfg s now hw (by omega) hok]
      have hv : (addRhValue cfg { s with humidity := hw.humidity, lastCalledTime := now }
          hw.humidity).RHvalues = (addRhValue cfg s hw.humidity).RHvalues := by
        simp only [addRhValue_RHvalues]
      have hi : (addRhValue cfg { s with humidity := hw.humidity, lastCalledTime := now }
          hw.humidity).RHindex = (addRhValue cfg s hw.humidity).RHindex := by
        simp only [addRhValue_RHindex]
      have hf : (addRhValue cfg { s with humidity := hw.humidity, lastCalledTime := now }
          hw.humidity).RHindexFilled = (addRhValue cfg s hw.humidity).RHindexFilled := by
        simp only [addRhValue_RHindexFilled]
      split_ifs <;> exact ⟨hv, hi, hf⟩
    · left
      rw [check_failed_read_eq cfg s now hw (by omega) hok]
      exact ⟨rfl, rfl, rfl⟩

theorem check_invariant (cfg : Config) (s : HumidityCheck) (now : Int) (hw : Hardware)
    (h : historyInvariant cfg s) : historyInvariant cfg (check cfg s now hw).2.1 := by
  rcases check_history cfg s now hw with ⟨-, hi, hf⟩ | ⟨-, hi, hf⟩
  · unfold historyInvariant
    rw [hi, hf]
    exact h
  · have h' := addRhValue_invariant cfg s hw.humidity h
    unfold historyInvariant at h' ⊢
    rw [hi, hf]
    exact h'

/-- C13: for a capacity `C ≥ 1` the invariant 'cursor in `[0, C)`, filled-count in
`[0, C]`' holds with cursor 0 and filled-count 0, is kept by `addRhValue` and by
every call of `check`, and so holds for every object reached from an empty
history by these operations. `getAverage` returns a value and leaves the object
alone. -/
theorem historyInvariant_reachable (cfg : Config) (hC : 1 ≤ cfg.RHindexSize) :
    (∀ s : HumidityCheck, s.RHindex = 0 → s.RHindexFilled = 0 → historyInvariant cfg s) ∧
    (∀ (s : HumidityCheck) (v : Int),
      historyInvariant cfg s → historyInvariant cfg (addRhValue cfg s v)) ∧
    (∀ (s : HumidityCheck) (now : Int) (hw : Hardware),
      historyInvariant cfg s → historyInvariant cfg (check cfg s now hw).2.1) ∧
    (∀ s : HumidityCheck, Reachable cfg s → historyInvariant cfg s) := by
  have hstart : ∀ s : HumidityCheck, s.RHindex = 0 → s.RHindexFilled = 0 →
      historyInvariant cfg s := by
    intro s hi hf
    unfold historyInvariant
    rw [hi, hf]
    omega
  refine ⟨hstart, addRhValue_invariant cfg, check_invariant cfg, ?_⟩
  intro s hs
  induction hs with
  | start s hi hf => exact hstart s hi hf
  | push s v _ ih => exact addRhValue_invariant cfg s v ih
  | call s now hw _ ih => exact check_invariant cfg s now hw ih

/-- C13, after the pushes 10, 20, 30, 40, 50 and one sampling call of `check` with
capacity 4: the cursor is 2 and the filled-count 4. -/
theorem historyInvariant_reachable_witness :
    historyInvariant exampleConfig
      (check exampleConfig (pushAll exampleConfig fresh [10, 20, 30, 40, 50]) 100
        ⟨DHTLIB_OK, 60, 0⟩).2.1 ∧
    (check exampleConfig (pushAll exampleConfig fresh [10, 20, 30, 40, 50]) 100
        ⟨DHTLIB_OK, 60, 0⟩).2.1.RHindex = 2 :=
  ⟨(historyInvariant_reachable exampleConfig (by decide)).2.2.2 _
      (Reachable.call _ 100 ⟨DHTLIB_OK, 60, 0⟩
        (Reachable.push _ 50 (Reachable.push _ 40 (Reachable.push _ 30
          (Reachable.push _ 20 (Reachable.push _ 10 (Reachable.start fresh rfl rfl))))))),
    by decide!⟩

/-! ## Consecutive calls -/

/-- Every path of `check` returns the value that it leaves in `fanOn`. -/
theorem check_returns_fanOn (cfg : Config) (s : HumidityCheck) (now : Int) (hw : Hardware) :
    (check cfg s now hw).1 = (check cfg s now hw).2.1.fanOn := by
  by_cases hgate : now - s.lastCalledTime < cfg.readingPeriod
  · rw [check_gated_eq cfg s now hw hgate]
  · by_cases hok : hw.chk = DHTLIB_OK
    · obtain ⟨hfan, -, -, -, -⟩ :=
        addRhValue_frame cfg { s with humidity := hw.humidity, lastCalledTime := now }
          hw.humidity
      rw [check_read_ok cfg s now hw (by omega) hok]
      cases hs : s.fanOn
      · rw [hs] at hfan
        simp only [Bool.false_eq_true, if_false]
        split_ifs
        · rfl
        · exact hfan.symm
      · rw [hs] at hfan
        simp only [if_true]
        split_ifs
        · rfl
        · exact hfan.symm
    · rw [check_failed_read_eq cfg s now hw (by omega) hok]

/-- A call that takes a sample sets `lastCalledTime` to the time of the call. -/
theorem check_sample_time (cfg : Config) (s : HumidityCheck) (now : Int) (hw : Hardware)
    (hgate : cfg.readingPeriod ≤ now - s.lastCalledTime) (hok : hw.chk = DHTLIB_OK) :
    (check cfg s now hw).2.1.lastCalledTime = now := by
  obtain ⟨-, -, -, hlast, -⟩ :=
    addRhValue_frame cfg { s with humidity := hw.humidity, lastCalledTime := now } hw.humidity
  rw [check_read_ok cfg s now hw hgate hok]
  split_ifs <;> exact hlast

/-- A call behind the rate gate reads the sensor. -/
theorem check_reads_sensor (cfg : Config) (s : HumidityCheck) (now : Int) (hw : Hardware)
    (hgate : cfg.readingPeriod ≤ now - s.lastCalledTime) :
    Effect.sensorRead ∈ (check cfg s now hw).2.2 := by
  by_cases hok : hw.chk = DHTLIB_OK
  · rw [check_read_ok cfg s now hw hgate hok]
    split_ifs <;> simp
  · rw [check_failed_read_eq cfg s now hw hgate hok]
    simp

/-- C16 as stated fails: with a period of 10 seconds and the last sample at time
0, a call at time 9 is rate-gated and returns false, and the call at time 11, two
seconds later, takes a sample of 90, fills a slot and returns true. -/
theorem check_twice_counterexample :
    (9 : Int) ≤ 11 ∧ (11 : Int) - 9 < exampleConfig.readingPeriod ∧
    (check exampleConfig fresh 9 ⟨DHTLIB_OK, 90, 0⟩).1 = false ∧
    (check exampleConfig fresh 9 ⟨DHTLIB_OK, 90, 0⟩).2.1.RHindexFilled = 0 ∧
    (check exampleConfig (check exampleConfig fresh 9 ⟨DHTLIB_OK, 90, 0⟩).2.1 11
      ⟨DHTLIB_OK, 90, 0⟩).1 = true ∧
    (check exampleConfig (check exampleConfig fresh 9 ⟨DHTLIB_OK, 90, 0⟩).2.1 11
      ⟨DHTLIB_OK, 90, 0⟩).2.1.RHindexFilled = 1 ∧
    (check exampleConfig (check exampleConfig fresh 9 ⟨DHTLIB_OK, 90, 0⟩).2.1 11
      ⟨DHTLIB_OK, 90, 0⟩).2.1.fanOn = true := by
  refine ⟨by decide, by decide, by decide!, by decide!, by decide!, by decide!, by decide!⟩

/-- C16, amended: two consecutive calls at times `t1 ≤ t2` with
`t2 - t1 < readingPeriod`, where the first call takes a sample (it passes the rate
gate and its read succeeds) or the second call is still within the period of the
last sample (`t2 - lastCalledTime < readingPeriod`): the second call returns what
the first returned, leaves the whole object as the first left it, and has no
effect. -/
theorem check_twice_within_period (cfg : Config) (s : HumidityCheck) (t1 t2 : Int)
    (hw1 hw2 : Hardware) (h12 : t1 ≤ t2) (hlt : t2 - t1 < cfg.readingPeriod)
    (hcase : (cfg.readingPeriod ≤ t1 - s.lastCalledTime ∧ hw1.chk = DHTLIB_OK) ∨
      t2 - s.lastCalledTime < cfg.readingPeriod) :
    (check cfg (check cfg s t1 hw1).2.1 t2 hw2).1 = (check cfg s t1 hw1).1 ∧
    (check cfg (check cfg s t1 hw1).2.1 t2 hw2).2.1 = (check cfg s t1 hw1).2.1 ∧
    (check cfg (check cfg s t1 hw1).2.1 t2 hw2).2.2 = [] := by
  have hgate2 : t2 - (check cfg s t1 hw1).2.1.lastCalledTime < cfg.readingPeriod := by
    rcases hcase with ⟨hg, hok⟩ | hin
    · rw [check_sample_time cfg s t1 hw1 hg hok]
      exact hlt
    · rw [check_gated_eq cfg s t1 hw1 (by omega)]
      exact hin
  rw [check_gated_eq cfg _ t2 hw2 hgate2]
  exact ⟨(check_returns_fanOn cfg s t1 hw1).symm, rfl, rfl⟩

/-- C16 amended, with a period of 10 seconds: a sampling call at time 10 switches
the fan on, and the call at time 15 returns true again and changes nothing. -/
theorem check_twice_within_period_witness :
    (check exampleConfig fresh 10 ⟨DHTLIB_OK, 90, 0⟩).1 = true ∧
    (check exampleConfig (check exampleConfig fresh 10 ⟨DHTLIB_OK, 90, 0⟩).2.1 15
      ⟨DHTLIB_OK, 20, 0⟩).1 = (check exampleConfig fresh 10 ⟨DHTLIB_OK, 90, 0⟩).1 ∧
    (check exampleConfig (check exampleConfig fresh 10 ⟨DHTLIB_OK, 90, 0⟩).2.1 15
      ⟨DHTLIB_OK, 20, 0⟩).2.1 = (check exampleConfig fresh 10 ⟨DHTLIB_OK, 90, 0⟩).2.1 := by
  have h := check_twice_within_period exampleConfig fresh 10 15 ⟨DHTLIB_OK, 90, 0⟩
    ⟨DHTLIB_OK, 20, 0⟩ (by decide) (by decide) (Or.inl ⟨by decide, rfl⟩)
  exact ⟨by decide!, h.1, h.2.1⟩

/-- C17: after a call at time `t` that passes the rate gate and whose read fails,
the next call at any time `t' ≥ t` passes the rate gate as well, because
`lastCalledTime` was not advanced, and it reads the sensor. -/
theorem check_retries_after_failure (cfg : Config) (s : HumidityCheck) (t t' : Int)
    (hw hw' : Hardware) (hgate : cfg.readingPeriod ≤ t - s.lastCalledTime)
    (hfail : hw.chk ≠ DHTLIB_OK) (ht : t ≤ t') :
    cfg.readingPeriod ≤ t' - (check cfg s t hw).2.1.lastCalledTime ∧
    Effect.sensorRead ∈ (check cfg (check cfg s t hw).2.1 t' hw').2.2 ∧
    (check cfg (check cfg s t hw).2.1 t' hw').2.2 ≠ [] := by
  have hlast : (check cfg s t hw).2.1.lastCalledTime = s.lastCalledTime := by
    rw [check_failed_read_eq cfg s t hw hgate hfail]
  have hgate' : cfg.readingPeriod ≤ t' - (check cfg s t hw).2.1.lastCalledTime := by
    rw [hlast]; omega
  have hmem := check_reads_sensor cfg (check cfg s t hw).2.1 t' hw' hgate'
  exact ⟨hgate', hmem, List.ne_nil_of_mem hmem⟩

/-- C17, with a timeout at time 100 and the next call at the same time 100: the
second call reads the sensor again, here with success. -/
theorem check_retries_after_failure_witness :
    (check exampleConfig (check exampleConfig fresh 100 ⟨-2, 0, 512⟩).2.1 100
      ⟨DHTLIB_OK, 50, 0⟩).2.2 = [Effect.sensorRead] ∧
    Effect.sensorRead ∈ (check exampleConfig (check exampleConfig fresh 100 ⟨-2, 0, 512⟩).2.1 100
      ⟨DHTLIB_OK, 50, 0⟩).2.2 :=
  ⟨by decide!, (check_retries_after_failure exampleConfig fresh 100 100 ⟨-2, 0, 512⟩
    ⟨DHTLIB_OK, 50, 0⟩ (by decide) (by decide) (by decide)).2.1⟩

/-- C18 as stated fails: the fan is on since time 0, and the call at time 7201
passes the rate gate but its read times out; the call returns true and the fan
stays on. -/
theorem check_ceiling_counterexample :
    ({ fresh with fanOn := true, triggeredHumidity := 40, lastCalledTime := 7190 } :
      HumidityCheck).fanOn = true ∧
    exampleConfig.readingPeriod ≤ (7201 : Int) - 7190 ∧
    (7201 : Int) - 0 > 7200 ∧
    (check exampleConfig
      { fresh with fanOn := true, triggeredHumidity := 40, lastCalledTime := 7190 }
      7201 ⟨-2, 0, 512⟩).1 = true ∧
    (check exampleConfig
      { fresh with fanOn := true, triggeredHumidity := 40, lastCalledTime := 7190 }
      7201 ⟨-2, 0, 512⟩).2.1.fanOn = true := by
  refine ⟨rfl, by decide, by decide, by decide!, by decide!⟩

/-- C18, amended: an active object with activation time `a = onTime`, called
behind the rate gate at a time `now` with `now - a > 7200`. When the read of the
call succeeds, the call returns false and the fan is off afterwards; when the read
fails, the ceiling is not looked at: the call returns true and the fan stays on
with `onTime` as it was. -/
theorem check_ceiling_needs_reading (cfg : Config) (s : HumidityCheck) (now : Int)
    (hw : Hardware) (hon : s.fanOn = true)
    (hgate : cfg.readingPeriod ≤ now - s.lastCalledTime) (htime : now - s.onTime > 7200) :
    (hw.chk = DHTLIB_OK →
      (check cfg s now hw).1 = false ∧ (check cfg s now hw).2.1.fanOn = false) ∧
    (hw.chk ≠ DHTLIB_OK →
      (check cfg s now hw).1 = true ∧ (check cfg s now hw).2.1.fanOn = true ∧
      (check cfg s now hw).2.1.onTime = s.onTime) := by
  constructor
  · intro hok
    rw [check_read_ok cfg s now hw hgate hok, if_pos hon, if_pos (Or.inr htime)]
    exact ⟨rfl, rfl⟩
  · intro hfail
    rw [check_failed_read_eq cfg s now hw hgate hfail]
    exact ⟨hon, hon, rfl⟩

/-- C18 amended, at time 7201 with the fan on since time 0: a reading of 90 switches
the fan off. -/
theorem check_ceiling_needs_reading_witness :
    (check exampleConfig
      { fresh with fanOn := true, triggeredHumidity := 40, lastCalledTime := 7190 }
      7201 ⟨DHTLIB_OK, 90, 0⟩).1 = false ∧
    (check exampleConfig
      { fresh with fanOn := true, triggeredHumidity := 40, lastCalledTime := 7190 }
      7201 ⟨DHTLIB_OK, 90, 0⟩).2.1.fanOn = false :=
  (check_ceiling_needs_reading exampleConfig
    { fresh with fanOn := true, triggeredHumidity := 40, lastCalledTime := 7190 }
    7201 ⟨DHTLIB_OK, 90, 0⟩ rfl (by decide) (by decide)).1 rfl

/-! ## The trigger level at the edges -/

theorem getTriggerRH_eq_triggerSum (b : Nat) :
    getTriggerRH b = if (85 : EReal) < triggerSum b then 85 else triggerSum b := rfl

theorem triggerSum_zero : triggerSum 0 = ⊤ := by
  simp [triggerSum, tenOver]

/-- The `min` macro of the sketch agrees with the minimum. -/
theorem getTriggerRH_eq_min (b : Nat) : getTriggerRH b = min 85 (triggerSum b) := by
  rw [getTriggerRH_eq_triggerSum]
  split_ifs with h
  · exact (min_eq_left h.le).symm
  · exact (min_eq_right (not_lt.mp h)).symm

theorem byteOfFloat_floor (x : ℚ) (h0 : 0 ≤ x) (h2 : x < 256) :
    byteOfFloat x = ⌊x⌋.toNat ∧ ((byteOfFloat x : Nat) : Int) = ⌊x⌋ := by
  have hlo : (0 : Int) ≤ ⌊x⌋ := Int.le_floor.mpr (by exact_mod_cast h0)
  have hhi : ⌊x⌋ < (256 : Int) := Int.floor_lt.mpr (by exact_mod_cast h2)
  unfold byteOfFloat
  constructor <;> omega

/-- C15 as stated fails: `getTriggerRH` has no guard for `baseline = 0`. The divisor
`sqrt(0 * 0.1)` is 0, the quotient `10 / 0` is computed and is `+∞`, and so is the
local `triggerRH`. -/
theorem getTriggerRH_unguarded_counterexample :
    Real.sqrt (((0 : Nat) : ℝ) * 0.1) = 0 ∧
    tenOver (Real.sqrt (((0 : Nat) : ℝ) * 0.1)) = ⊤ ∧
    triggerSum 0 = ⊤ := by
  refine ⟨by simp, by simp [tenOver], triggerSum_zero⟩

/-- C15, amended: for `baseline = 0` the unguarded division gives the local
`triggerRH = +∞`, and `min(85, triggerRH)` returns the cap: the result is exactly
85, a finite level. -/
theorem getTriggerRH_zero_is_cap :
    getTriggerRH 0 = (if (85 : EReal) < triggerSum 0 then 85 else triggerSum 0) ∧
    triggerSum 0 = ⊤ ∧
    getTriggerRH 0 = 85 ∧
    getTriggerRH 0 = ((85 : ℝ) : EReal) := by
  refine ⟨rfl, triggerSum_zero, getTriggerRH_zero, ?_⟩
  rw [getTriggerRH_zero, coe_eightyFive]

/-- A level exceeded by the short average `S` lies above the long average `L` as
long as `0 ≤ L ≤ 85`. -/
theorem baseline_lt_of_above_trigger (S L : ℚ) (h0 : 0 ≤ L) (h85 : L ≤ 85)
    (h : getTriggerRH (byteOfFloat L) < (((S : ℚ) : ℝ) : EReal)) : L < S := by
  obtain ⟨-, hb⟩ := byteOfFloat_floor L h0 (by linarith)
  have hLlt : L < (byteOfFloat L : ℚ) + 1 := by
    have h1 : L < ((⌊L⌋ : Int) : ℚ) + 1 := Int.lt_floor_add_one L
    rw [← hb] at h1
    exact_mod_cast h1
  have hble : ((byteOfFloat L : Nat) : ℚ) ≤ L := by
    have h1 : ((⌊L⌋ : Int) : ℚ) ≤ L := Int.floor_le L
    rw [← hb] at h1
    exact_mod_cast h1
  rcases Nat.eq_zero_or_pos (byteOfFloat L) with hz | hpos
  · rw [hz, getTriggerRH_zero, ← coe_eightyFive, EReal.coe_lt_coe_iff] at h
    have h' : (85 : ℚ) < S := by exact_mod_cast h
    linarith
  · rw [getTriggerRH_pos hpos, EReal.coe_lt_coe_iff, min_lt_iff] at h
    rcases h with h | h
    · have h' : (85 : ℚ) < S := by exact_mod_cast h
      linarith
    · have hbR : (0 : ℝ) < ((byteOfFloat L : Nat) : ℝ) := by exact_mod_cast hpos
      have hb85 : ((byteOfFloat L : Nat) : ℝ) ≤ 85 := by
        have : ((byteOfFloat L : Nat) : ℚ) ≤ 85 := hble.trans h85
        exact_mod_cast this
      have hpos' : (0 : ℝ) < ((byteOfFloat L : Nat) : ℝ) * 0.1 := by positivity
      have hs : 0 < Real.sqrt (((byteOfFloat L : Nat) : ℝ) * 0.1) := Real.sqrt_pos.mpr hpos'
      have hsq : Real.sqrt (((byteOfFloat L : Nat) : ℝ) * 0.1) ^ 2
          = ((byteOfFloat L : Nat) : ℝ) * 0.1 := Real.sq_sqrt hpos'.le
      set r := Real.sqrt (((byteOfFloat L : Nat) : ℝ) * 0.1) with hr
      have hr10 : r ≤ 10 := by nlinarith
      have hq : (1 : ℝ) ≤ 10 / r := by
        rw [le_div_iff₀ hs]; linarith
      have hS : ((byteOfFloat L : Nat) : ℝ) + 1 < (S : ℝ) := by linarith
      have hS' : ((byteOfFloat L : Nat) : ℚ) + 1 < S := by exact_mod_cast hS
      linarith

/-- C19 as stated fails: with the history 100, 100, 90 and the reading 90 the
short average is 90 and the long average 95. The level is the cap 85, so the fan
goes on, and the stored baseline 95 is above the short average 90; the next
sample, again with a short average of 90, switches the fan off. -/
theorem check_baseline_counterexample :
    (pushAll exampleConfig fresh [100, 100, 90]).fanOn = false ∧
    getAverage exampleConfig
      (addRhValue exampleConfig (pushAll exampleConfig fresh [100, 100, 90]) 90)
      exampleConfig.shortPeriod = 90 ∧
    (check exampleConfig (pushAll exampleConfig fresh [100, 100, 90]) 100
      ⟨DHTLIB_OK, 90, 0⟩).1 = true ∧
    (check exampleConfig (pushAll exampleConfig fresh [100, 100, 90]) 100
      ⟨DHTLIB_OK, 90, 0⟩).2.1.triggeredHumidity = 95 ∧
    ¬ ((90 : ℚ) > 95) ∧
    getAverage exampleConfig
      (addRhValue exampleConfig
        (check exampleConfig (pushAll exampleConfig fresh [100, 100, 90]) 100
          ⟨DHTLIB_OK, 90, 0⟩).2.1 90)
      exampleConfig.shortPeriod = 90 ∧
    (check exampleConfig
      (check exampleConfig (pushAll exampleConfig fresh [100, 100, 90]) 100
        ⟨DHTLIB_OK, 90, 0⟩).2.1 110 ⟨DHTLIB_OK, 90, 0⟩).1 = false := by
  refine ⟨rfl, by decide!, by decide!, by decide!, by decide, by decide!, by decide!⟩

/-- C19, amended: when a call switches an idle object on (behind the rate gate,
with a successful read) and the long average `L` after the push is between 0 and
the cap 85, the short average `S` is strictly above the baseline
`triggeredHumidity = L` that the call stores, so the same short average does not
meet the recovery test `S < triggeredHumidity`. -/
theorem check_trigger_above_baseline (cfg : Config) (s : HumidityCheck) (now : Int)
    (hw : Hardware) (hoff : s.fanOn = false)
    (hgate : cfg.readingPeriod ≤ now - s.lastCalledTime) (hok : hw.chk = DHTLIB_OK)
    (hfire : (check cfg s now hw).1 = true)
    (h0 : 0 ≤ getAverage cfg (addRhValue cfg s hw.humidity) cfg.longPeriod)
    (h85 : getAverage cfg (addRhValue cfg s hw.humidity) cfg.longPeriod ≤ 85) :
    (check cfg s now hw).2.1.fanOn = true ∧
    (check cfg s now hw).2.1.triggeredHumidity
      = getAverage cfg (addRhValue cfg s hw.humidity) cfg.longPeriod ∧
    (check cfg s now hw).2.1.triggeredHumidity
      < getAverage cfg (addRhValue cfg s hw.humidity) cfg.shortPeriod ∧
    ¬ (getAverage cfg (addRhValue cfg s hw.humidity) cfg.shortPeriod
      < (check cfg s now hw).2.1.triggeredHumidity) := by
  have hoff' : ¬ (s.fanOn = true) := by simp [hoff]
  rw [check_read_ok cfg s now hw hgate hok, if_neg hoff'] at hfire ⊢
  split_ifs at hfire ⊢ with h
  have hlt := baseline_lt_of_above_trigger _ _ h0 h85 h
  exact ⟨rfl, rfl, hlt, not_lt.mpr hlt.le⟩

/-- C19 amended, at the history 36, 36, 45 with the reading 46: the call fires,
the stored baseline is 40.75 and the short average is 45.5. -/
theorem check_trigger_above_baseline_witness :
    (check exampleConfig (pushAll exampleConfig fresh [36, 36, 45]) 100
      ⟨DHTLIB_OK, 46, 0⟩).2.1.triggeredHumidity = 163 / 4 ∧
    (check exampleConfig (pushAll exampleConfig fresh [36, 36, 45]) 100
      ⟨DHTLIB_OK, 46, 0⟩).2.1.triggeredHumidity
      < getAverage exampleConfig
          (addRhValue exampleConfig (pushAll exampleConfig fresh [36, 36, 45]) 46)
          exampleConfig.shortPeriod :=
  ⟨by decide!, (check_trigger_above_baseline exampleConfig
    (pushAll exampleConfig fresh [36, 36, 45]) 100 ⟨DHTLIB_OK, 46, 0⟩ rfl (by decide) rfl
    (by decide!) (by decide!) (by decide!)).2.2.1⟩

/-- C20: an idle object called behind the rate gate with a successful read, with
`S` and `L` the short and long averages after the push and `0 ≤ L < 256`. The
`byte` that `getTriggerRH` receives is `⌊L⌋`; the call fires exactly when `S` is
above `getTriggerRH(⌊L⌋)`, which is `min(85, ⌊L⌋ + 10 / sqrt(⌊L⌋ * 0.1))` (with
`10 / 0 = +∞` at `⌊L⌋ = 0`, a real number from `L ≥ 1` on); any long average with
the same integer part gives the same level; and the baseline stored when the call
fires is `L` itself. -/
theorem check_level_of_truncated (cfg : Config) (s : HumidityCheck) (now : Int)
    (hw : Hardware) (hoff : s.fanOn = false)
    (hgate : cfg.readingPeriod ≤ now - s.lastCalledTime) (hok : hw.chk = DHTLIB_OK)
    (h0 : 0 ≤ getAverage cfg (addRhValue cfg s hw.humidity) cfg.longPeriod)
    (h256 : getAverage cfg (addRhValue cfg s hw.humidity) cfg.longPeriod < 256) :
    byteOfFloat (getAverage cfg (addRhValue cfg s hw.humidity) cfg.longPeriod)
      = ⌊getAverage cfg (addRhValue cfg s hw.humidity) cfg.longPeriod⌋.toNat ∧
    ((check cfg s now hw).1 = true ↔
      getTriggerRH ⌊getAverage cfg (addRhValue cfg s hw.humidity) cfg.longPeriod⌋.toNat
        < (((getAverage cfg (addRhValue cfg s hw.humidity) cfg.shortPeriod : ℚ) : ℝ) : EReal)) ∧
    getTriggerRH ⌊getAverage cfg (addRhValue cfg s hw.humidity) cfg.longPeriod⌋.toNat
      = min (85 : EReal)
          ((((⌊getAverage cfg (addRhValue cfg s hw.humidity) cfg.longPeriod⌋ : Int) : ℝ) : EReal)
            + tenOver (Real.sqrt
                (((⌊getAverage cfg (addRhValue cfg s hw.humidity) cfg.longPeriod⌋ : Int) : ℝ)
                  * 0.1))) ∧
    (1 ≤ getAverage cfg (addRhValue cfg s hw.humidity) cfg.longPeriod →
      getTriggerRH ⌊getAverage cfg (addRhValue cfg s hw.humidity) cfg.longPeriod⌋.toNat
        = ((min 85
            (((⌊getAverage cfg (addRhValue cfg s hw.humidity) cfg.longPeriod⌋ : Int) : ℝ)
              + 10 / Real.sqrt
                (((⌊getAverage cfg (addRhValue cfg s hw.humidity) cfg.longPeriod⌋ : Int) : ℝ)
                  * 0.1)) : ℝ) : EReal)) ∧
    (∀ L : ℚ, 0 ≤ L → L < 256 →
      ⌊L⌋ = ⌊getAverage cfg (addRhValue cfg s hw.humidity) cfg.longPeriod⌋ →
      getTriggerRH (byteOfFloat L)
        = getTriggerRH
            (byteOfFloat (getAverage cfg (addRhValue cfg s hw.humidity) cfg.longPeriod))) ∧
    ((check cfg s now hw).1 = true →
      (check cfg s now hw).2.1.triggeredHumidity
        = getAverage cfg (addRhValue cfg s hw.humidity) cfg.longPeriod) := by
  have hoff' : ¬ (s.fanOn = true) := by simp [hoff]
  obtain ⟨hbyte, hcast⟩ := byteOfFloat_floor _ h0 h256
  have hcastR : (((⌊getAverage cfg (addRhValue cfg s hw.humidity) cfg.longPeriod⌋.toNat : Nat)
      : ℝ)) = ((⌊getAverage cfg (addRhValue cfg s hw.humidity) cfg.longPeriod⌋ : Int) : ℝ) := by
    rw [← hbyte]
    exact_mod_cast hcast
  rw [check_read_ok cfg s now hw hgate hok, if_neg hoff', ← hbyte]
  refine ⟨rfl, ?_, ?_, ?_, ?_, ?_⟩
  · split_ifs with h
    · exact ⟨fun _ => h, fun _ => rfl⟩
    · exact ⟨fun h' => absurd h' (by simp), fun h' => absurd h' h⟩
  · rw [getTriggerRH_eq_min, triggerSum, hbyte, hcastR]
  · intro h1
    obtain ⟨hpos, hc⟩ := byteOfFloat_of_range _ h1 h256
    rw [getTriggerRH_pos hpos, hc]
  · intro L hL0 hL256 hfl
    obtain ⟨hbL, -⟩ := byteOfFloat_floor L hL0 hL256
    rw [hbL, hfl, hbyte]
  · split_ifs with h
    · intro _; rfl
    · intro h'; exact absurd h' (by simp)

/-- C20, at the history 36, 36, 45 with the reading 46: the long average 40.75 is
passed as the byte 40, a long average of 40 gives the same level, the call fires
and the stored baseline is 40.75. -/
theorem check_level_of_truncated_witness :
    byteOfFloat (163 / 4) = 40 ∧
    getTriggerRH (byteOfFloat 40)
      = getTriggerRH (byteOfFloat (getAverage exampleConfig
          (addRhValue exampleConfig (pushAll exampleConfig fresh [36, 36, 45]) 46)
          exampleConfig.longPeriod)) ∧
    (check exampleConfig (pushAll exampleConfig fresh [36, 36, 45]) 100
      ⟨DHTLIB_OK, 46, 0⟩).2.1.triggeredHumidity
      = getAverage exampleConfig
          (addRhValue exampleConfig (pushAll exampleConfig fresh [36, 36, 45]) 46)
          exampleConfig.longPeriod := by
  have h := check_level_of_truncated exampleConfig (pushAll exampleConfig fresh [36, 36, 45])
    100 ⟨DHTLIB_OK, 46, 0⟩ rfl (by decide) rfl (by decide!) (by decide!)
  exact ⟨by decide!, h.2.2.2.2.1 40 (by norm_num) (by norm_num) (by decide!),
    h.2.2.2.2.2 (by decide!)⟩

end AutoBathFan
